import Mathlib

/-!
# polyscope: surface vector quantities

A shallow embedding of `src/src/surface_vector_quantity.cpp`.

* `double` is embedded as a field `R` (the rationals for evaluation, the reals for the
  analytic statements); `std::vector` is `List` and `push_back` appends at the end.
* `std::complex<double>` is the structure `polyscope.Complex` with the arithmetic of the
  C++ operators; `std::exp`, `std::pow`, `PI` and `IM_I` come from outside the file and are
  collected in `StdLib`.
* Mesh elements are handles (`Nat`); the mesh, the geometry cache and the data transfer are
  records of functions.
* Member functions that mutate `this` return the new object, and the calls they issue to
  the GPU program, the tracer and the ribbon artist are returned as a list of `Effect`s.
* The one-form constructor is embedded twice: with the two Eigen objects instrumented
  (a store outside the three rows or a read of an unassigned coefficient stops the run), and
  as it runs, without checks, where it finishes on every mesh.
-/

namespace polyscope

/-! ## Data model -/

/-- Modelled from the spec: the enumeration `VectorType` (declared in a header that is not
part of the sources); the spec lists AMBIENT and one other kind. -/
inductive VectorType where
  | STANDARD
  | AMBIENT
  deriving DecidableEq

/-- Modelled from the spec: the enumeration `MeshElement` (declared in a header that is not
part of the sources). -/
inductive MeshElement where
  | VERTEX
  | FACE
  deriving DecidableEq

/-- The type `Vector3`: three coordinates. -/
structure Vector3 (R : Type) where
  x : R
  y : R
  z : R
  deriving DecidableEq

/-- The C++ `operator+` on `Vector3`. -/
def Vector3.add {R : Type} [Add R] (a b : Vector3 R) : Vector3 R :=
  ⟨a.x + b.x, a.y + b.y, a.z + b.z⟩

/-- The C++ `operator*(Vector3, double)`. -/
def Vector3.mul {R : Type} [Mul R] (a : Vector3 R) (s : R) : Vector3 R :=
  ⟨a.x * s, a.y * s, a.z * s⟩

/-- The function `dot` on two `Vector3`. -/
def dot {R : Type} [Add R] [Mul R] (a b : Vector3 R) : R :=
  a.x * b.x + a.y * b.y + a.z * b.z

/-- The type `Complex` of the sources, `std::complex<double>`. -/
structure Complex (R : Type) where
  real : R
  imag : R
  deriving DecidableEq

/-- The C++ `operator*` of two complex numbers (`angle *= rot`). -/
def Complex.mul {R : Type} [Add R] [Sub R] [Mul R] (a b : Complex R) : Complex R :=
  ⟨a.real * b.real - a.imag * b.imag, a.real * b.imag + a.imag * b.real⟩

/-- The C++ `operator*(complex, double)` (`IM_I * rotAngle`). -/
def Complex.mulReal {R : Type} [Mul R] (a : Complex R) (s : R) : Complex R :=
  ⟨a.real * s, a.imag * s⟩

/-- What the file takes from the standard library and the geometry headers: the constants
`PI` and `IM_I`, `std::exp` on complex numbers and `std::pow(complex, double)`. -/
structure StdLib (R : Type) where
  PI : R
  IM_I : Complex R
  exp : Complex R → Complex R
  pow : Complex R → R → Complex R

abbrev VertexPtr := Nat
abbrev FacePtr := Nat
abbrev EdgePtr := Nat
abbrev HalfedgePtr := Nat

/-- The part of the half-edge mesh the constructors walk over. -/
structure SurfaceMesh where
  vertices : List VertexPtr
  faces : List FacePtr
  adjacentHalfedges : FacePtr → List HalfedgePtr
  edge : HalfedgePtr → EdgePtr
  halfedge : EdgePtr → HalfedgePtr

/-- The geometry and its cache: positions, barycenters, the two vectors of each face basis
and the half-edge vectors. -/
structure Geometry (R : Type) where
  position : VertexPtr → Vector3 R
  barycenter : FacePtr → Vector3 R
  faceBases : FacePtr → Vector3 R × Vector3 R
  halfedgeVectors : HalfedgePtr → Vector3 R

/-- The remapper is an external class; the embedding records how it was set up. -/
inductive AffineRemapper (R : Type) where
  | identity
  | minMax (vs : List (Vector3 R))
  | magnitude (vs : List (Vector3 R))

/-- The uniforms `SurfaceVectorQuantity::draw` sets on the glyph program. -/
structure Uniforms (R : Type) where
  u_viewMatrix : List R
  u_projMatrix : List R
  u_eye : Vector3 R
  u_lightCenter : Vector3 R
  u_lightDist : R
  u_radius : R
  u_color : Vector3 R
  u_lengthMult : R

/-- The glyph program: its two attribute buffers and the uniforms set so far. -/
structure GLProgram (R : Type) where
  a_vector : List (Vector3 R)
  a_position : List (Vector3 R)
  uniforms : Option (Uniforms R)

/-- The ribbon artist, identified by the arguments of the trace that built it. -/
structure RibbonArtist where
  nSym : Int
  maxSteps : Nat
  deriving DecidableEq

/-- The per-frame globals read by `draw`: the camera and `state::center`,
`state::lengthScale`. -/
structure FrameState (R : Type) where
  viewMat : List R
  projMat : List R
  eyePos : Vector3 R
  center : Vector3 R
  lengthScale : R

/-- Calls issued to collaborators during a `draw`. -/
inductive Effect (R : Type) where
  | programDraw (p : GLProgram R)
  | traceField (nSym : Int) (maxSteps : Nat)
  | ribbonDraw (a : RibbonArtist)

/-- The members of `SurfaceVectorQuantity` (with `enabled` of its base class). -/
structure SurfaceVectorQuantity (R : Type) where
  vectorType : VectorType
  definedOn : MeshElement
  vectorRoots : List (Vector3 R)
  vectors : List (Vector3 R)
  mapper : AffineRemapper R
  lengthMult : R
  radiusMult : R
  vectorColor : Vector3 R
  enabled : Bool
  ribbonEnabled : Bool
  program : Option (GLProgram R)
  ribbonArtist : Option RibbonArtist

/-! ## The base class -/

/-- Modelled from the spec: the member initialisers of the class declaration (a header that
is not part of the sources). The constructor body itself is empty; the quantity starts
disabled, without ribbon mode, without a GPU program and, as the spec says of the ribbon
artifact, without a ribbon artist. -/
def SurfaceVectorQuantity.new {R : Type} [Zero R] (definedOn_ : MeshElement)
    (vectorType_ : VectorType) : SurfaceVectorQuantity R :=
  { vectorType := vectorType_
    definedOn := definedOn_
    vectorRoots := []
    vectors := []
    mapper := AffineRemapper.identity
    lengthMult := 0
    radiusMult := 0
    vectorColor := ⟨0, 0, 0⟩
    enabled := false
    ribbonEnabled := false
    program := none
    ribbonArtist := none }

/-- The method `SurfaceVectorQuantity::finishConstructing`; `nextSubColor` is the colour the
parent's colour manager hands out. -/
def SurfaceVectorQuantity.finishConstructing {R : Type} [Field R]
    (q : SurfaceVectorQuantity R) (nextSubColor : Vector3 R) : SurfaceVectorQuantity R :=
  let mapper :=
    if q.vectorType = VectorType.AMBIENT then AffineRemapper.minMax q.vectors
    else AffineRemapper.magnitude q.vectors
  let lengthMult : R := if q.vectorType ≠ VectorType.AMBIENT then 2 / 100 else 1
  { q with
    mapper := mapper
    lengthMult := lengthMult
    radiusMult := 5 / 10000
    vectorColor := nextSubColor }

/-- The method `SurfaceVectorQuantity::prepare`; `mapFn` is `mapper.map`. -/
def SurfaceVectorQuantity.prepare {R : Type} (q : SurfaceVectorQuantity R)
    (mapFn : AffineRemapper R → Vector3 R → Vector3 R) : SurfaceVectorQuantity R :=
  let mappedVectors := q.vectors.foldl (fun acc v => acc ++ [mapFn q.mapper v]) []
  { q with
    program := some { a_vector := mappedVectors, a_position := q.vectorRoots, uniforms := none } }

/-- The method `SurfaceVectorQuantity::draw`. -/
def SurfaceVectorQuantity.draw {R : Type} [Field R] (q : SurfaceVectorQuantity R)
    (mapFn : AffineRemapper R → Vector3 R → Vector3 R) (fs : FrameState R) :
    SurfaceVectorQuantity R × List (Effect R) :=
  if !q.enabled || q.ribbonEnabled then (q, [])
  else
    let q1 := if q.program.isNone then q.prepare mapFn else q
    match q1.program with
    | none => (q1, [])
    | some p =>
      let u : Uniforms R :=
        { u_viewMatrix := fs.viewMat
          u_projMatrix := fs.projMat
          u_eye := fs.eyePos
          u_lightCenter := fs.center
          u_lightDist := 5 * fs.lengthScale
          u_radius := q1.radiusMult * fs.lengthScale
          u_color := q1.vectorColor
          u_lengthMult :=
            if q1.vectorType = VectorType.AMBIENT then 1 else q1.lengthMult * fs.lengthScale }
      let p1 : GLProgram R := { p with uniforms := some u }
      ({ q1 with program := some p1 }, [Effect.programDraw p1])

/-! ## Intrinsic face vectors: drawing -/

/-- The members of `SurfaceFaceIntrinsicVectorQuantity`. -/
structure SurfaceFaceIntrinsicVectorQuantity (R : Type) extends SurfaceVectorQuantity R where
  nSym : Int
  vectorField : FacePtr → Complex R

/-- The members of `SurfaceOneFormIntrinsicVectorQuantity`. -/
structure SurfaceOneFormIntrinsicVectorQuantity (R : Type) extends SurfaceVectorQuantity R where
  oneForm : EdgePtr → R
  mappedVectorField : FacePtr → Complex R

/-- The ribbon block shared by the two `draw` overrides, after the base class has drawn:
`nSym` is the symmetry order passed to `traceField` (with the step budget 2500). -/
def ribbonDraw {R : Type} (base : SurfaceVectorQuantity R) (nSym : Int) :
    SurfaceVectorQuantity R × List (Effect R) :=
  if base.ribbonEnabled then
    let (q1, ev1) :=
      match base.ribbonArtist with
      | none =>
        ({ base with ribbonArtist := some ⟨nSym, 2500⟩ }, [Effect.traceField nSym 2500])
      | some _ => (base, [])
    match q1.ribbonArtist with
    | none => (q1, ev1)
    | some a => if q1.enabled then (q1, ev1 ++ [Effect.ribbonDraw a]) else (q1, ev1)
  else (base, [])

/-- The method `SurfaceFaceIntrinsicVectorQuantity::draw`. -/
def SurfaceFaceIntrinsicVectorQuantity.draw {R : Type} [Field R]
    (q : SurfaceFaceIntrinsicVectorQuantity R)
    (mapFn : AffineRemapper R → Vector3 R → Vector3 R) (fs : FrameState R) :
    SurfaceFaceIntrinsicVectorQuantity R × List (Effect R) :=
  let r0 := q.toSurfaceVectorQuantity.draw mapFn fs
  let r1 := ribbonDraw r0.1 q.nSym
  ({ q with toSurfaceVectorQuantity := r1.1 }, r0.2 ++ r1.2)

/-- The method `SurfaceOneFormIntrinsicVectorQuantity::draw`. -/
def SurfaceOneFormIntrinsicVectorQuantity.draw {R : Type} [Field R]
    (q : SurfaceOneFormIntrinsicVectorQuantity R)
    (mapFn : AffineRemapper R → Vector3 R → Vector3 R) (fs : FrameState R) :
    SurfaceOneFormIntrinsicVectorQuantity R × List (Effect R) :=
  let r0 := q.toSurfaceVectorQuantity.draw mapFn fs
  let r1 := ribbonDraw r0.1 1
  ({ q with toSurfaceVectorQuantity := r1.1 }, r0.2 ++ r1.2)

/-! ## Constructors -/

/-- The data transfer of the parent structure, `parent->transfer.transfer`, for data on
vertices, faces and edges. -/
structure Transfer where
  vertex : {α : Type} → (VertexPtr → α) → VertexPtr → α
  face : {α : Type} → (FacePtr → α) → FacePtr → α
  edge : {α : Type} → (EdgePtr → α) → EdgePtr → α

/-- What the constructors reach through `parent`: the mesh, the geometry, the data transfer
and the next colour of the colour manager. -/
structure Parent (R : Type) where
  mesh : SurfaceMesh
  geometry : Geometry R
  transfer : Transfer
  nextSubColor : Vector3 R

/-- The statement `vectorRoots.push_back(root)`. -/
def SurfaceVectorQuantity.pushRoot {R : Type} (q : SurfaceVectorQuantity R)
    (root : Vector3 R) : SurfaceVectorQuantity R :=
  { q with vectorRoots := q.vectorRoots ++ [root] }

/-- The statement `vectors.push_back(v)`. -/
def SurfaceVectorQuantity.pushVector {R : Type} (q : SurfaceVectorQuantity R)
    (v : Vector3 R) : SurfaceVectorQuantity R :=
  { q with vectors := q.vectors ++ [v] }

/-- The members of `SurfaceVertexVectorQuantity`. -/
structure SurfaceVertexVectorQuantity (R : Type) extends SurfaceVectorQuantity R where
  vectorField : VertexPtr → Vector3 R

/-- The members of `SurfaceFaceVectorQuantity`. -/
structure SurfaceFaceVectorQuantity (R : Type) extends SurfaceVectorQuantity R where
  vectorField : FacePtr → Vector3 R

/-- The constructor of `SurfaceVertexVectorQuantity`. -/
def SurfaceVertexVectorQuantity.new {R : Type} [Field R] (vectors_ : VertexPtr → Vector3 R)
    (parent : Parent R) (vectorType_ : VectorType) : SurfaceVertexVectorQuantity R :=
  let base : SurfaceVectorQuantity R := SurfaceVectorQuantity.new MeshElement.VERTEX vectorType_
  let vectorField := parent.transfer.vertex vectors_
  let filled := parent.mesh.vertices.foldl
    (fun q v => (q.pushRoot (parent.geometry.position v)).pushVector (vectorField v)) base
  { toSurfaceVectorQuantity := filled.finishConstructing parent.nextSubColor
    vectorField := vectorField }

/-- The constructor of `SurfaceFaceVectorQuantity`. -/
def SurfaceFaceVectorQuantity.new {R : Type} [Field R] (vectors_ : FacePtr → Vector3 R)
    (parent : Parent R) (vectorType_ : VectorType) : SurfaceFaceVectorQuantity R :=
  let base : SurfaceVectorQuantity R := SurfaceVectorQuantity.new MeshElement.FACE vectorType_
  let vectorField := parent.transfer.face vectors_
  let filled := parent.mesh.faces.foldl
    (fun q f => (q.pushRoot (parent.geometry.barycenter f)).pushVector (vectorField f)) base
  { toSurfaceVectorQuantity := filled.finishConstructing parent.nextSubColor
    vectorField := vectorField }

/-- The expression `gc.faceBases[f][0] * z.real() + gc.faceBases[f][1] * z.imag()`. -/
def tangentVector {R : Type} [Add R] [Mul R] (gc : Geometry R) (f : FacePtr)
    (z : Complex R) : Vector3 R :=
  ((gc.faceBases f).1.mul z.real).add ((gc.faceBases f).2.mul z.imag)

/-- The loop `for (int iRot = 0; iRot < nSym; iRot++)` of the intrinsic face constructor,
with the number of iterations still to run as first argument. -/
def rotLoop {R : Type} [Field R] (geometry : Geometry R) (f : FacePtr) (rot : Complex R) :
    Nat → Complex R → SurfaceVectorQuantity R → SurfaceVectorQuantity R
  | 0, _, q => q
  | m + 1, angle, q =>
    let q1 := q.pushRoot (geometry.barycenter f)
    let v := tangentVector geometry f angle
    let q2 := q1.pushVector v
    rotLoop geometry f rot m (angle.mul rot) q2

/-- The constructor of `SurfaceFaceIntrinsicVectorQuantity`. -/
def SurfaceFaceIntrinsicVectorQuantity.new {R : Type} [Field R] (S : StdLib R)
    (vectors_ : FacePtr → Complex R) (parent : Parent R) (nSym_ : Int)
    (vectorType_ : VectorType) : SurfaceFaceIntrinsicVectorQuantity R :=
  let base : SurfaceVectorQuantity R := SurfaceVectorQuantity.new MeshElement.FACE vectorType_
  let rotAngle : R := 2 * S.PI / (nSym_ : R)
  let rot := S.exp (S.IM_I.mulReal rotAngle)
  let vectorField := parent.transfer.face vectors_
  let filled := parent.mesh.faces.foldl
    (fun q f =>
      let angle := S.pow (vectorField f) (1 / (nSym_ : R))
      rotLoop parent.geometry f rot nSym_.toNat angle q) base
  { toSurfaceVectorQuantity := filled.finishConstructing parent.nextSubColor
    nSym := nSym_
    vectorField := vectorField }

/-! ## The one-form constructor, with the Eigen objects instrumented -/

/-- What goes wrong with the fixed-size Eigen objects: a coefficient access outside the
three rows, and a solve that reads a coefficient no statement has assigned. -/
inductive EigenError where
  | rowOutOfRange (i : Nat)
  | unassigned
  deriving DecidableEq

/-- The object `Eigen::Matrix<double, 3, 2>`; a declared matrix has no coefficient
assigned. -/
abbrev Matrix32 (R : Type) := Fin 3 → Fin 2 → Option R

/-- The object `Eigen::Vector3d`; a declared vector has no coefficient assigned. -/
abbrev Vector3d (R : Type) := Fin 3 → Option R

/-- The assignment `vectorMat(i, j) = v`. -/
def Matrix32.set {R : Type} (m : Matrix32 R) (i : Nat) (j : Fin 2) (v : R) :
    Except EigenError (Matrix32 R) :=
  if h : i < 3 then
    Except.ok (fun a b => if a = ⟨i, h⟩ ∧ b = j then some v else m a b)
  else Except.error (EigenError.rowOutOfRange i)

/-- The assignment `rhsVec[i] = v`. -/
def Vector3d.set {R : Type} (r : Vector3d R) (i : Nat) (v : R) :
    Except EigenError (Vector3d R) :=
  if h : i < 3 then
    Except.ok (fun a => if a = ⟨i, h⟩ then some v else r a)
  else Except.error (EigenError.rowOutOfRange i)

/-- The coefficients of a matrix as the solver reads them. -/
def Matrix32.read {R : Type} (m : Matrix32 R) : Except EigenError (Fin 3 → Fin 2 → R) :=
  if h : ∀ a b, (m a b).isSome then Except.ok (fun a b => (m a b).get (h a b))
  else Except.error EigenError.unassigned

/-- The coefficients of a vector as the solver reads them. -/
def Vector3d.read {R : Type} (r : Vector3d R) : Except EigenError (Fin 3 → R) :=
  if h : ∀ a, (r a).isSome then Except.ok (fun a => (r a).get (h a))
  else Except.error EigenError.unassigned

/-- The loop `for (HalfedgePtr he : f.adjacentHalfedges())` of the one-form constructor:
the half-edges still to visit, the counter `i`, and the two objects being filled. -/
def fillSystem {R : Type} [Field R] (mesh : SurfaceMesh) (gc : Geometry R)
    (oneForm : EdgePtr → R) (f : FacePtr) :
    List HalfedgePtr → Nat → Matrix32 R → Vector3d R →
      Except EigenError (Matrix32 R × Vector3d R)
  | [], _, vectorMat, rhsVec => Except.ok (vectorMat, rhsVec)
  | he :: rest, i, vectorMat, rhsVec => do
    let signVal : R := if he = mesh.halfedge (mesh.edge he) then 1 else -1
    let m1 ← vectorMat.set i 0 (dot (gc.halfedgeVectors he) (gc.faceBases f).1)
    let m2 ← m1.set i 1 (dot (gc.halfedgeVectors he) (gc.faceBases f).2)
    let r1 ← rhsVec.set i (oneForm (mesh.edge he) * signVal)
    fillSystem mesh gc oneForm f rest (i + 1) m2 r1

/-- The body of the loop over the faces in the one-form constructor; `solve` is
`vectorMat.colPivHouseholderQr().solve(rhsVec)`. The state is the quantity under
construction and `mappedVectorField`. -/
def oneFormFace {R : Type} [Field R] (solve : (Fin 3 → Fin 2 → R) → (Fin 3 → R) → R × R)
    (parent : Parent R) (oneForm : EdgePtr → R)
    (st : SurfaceVectorQuantity R × (FacePtr → Complex R)) (f : FacePtr) :
    Except EigenError (SurfaceVectorQuantity R × (FacePtr → Complex R)) := do
  let filled ← fillSystem parent.mesh parent.geometry oneForm f
    (parent.mesh.adjacentHalfedges f) 0 (fun _ _ => none) (fun _ => none)
  let A ← filled.1.read
  let b ← filled.2.read
  let x := solve A b
  let approxVec : Complex R := ⟨x.1, x.2⟩
  let mappedVectorField := Function.update st.2 f approxVec
  let q1 := st.1.pushRoot (parent.geometry.barycenter f)
  let v := tangentVector parent.geometry f approxVec
  Except.ok (q1.pushVector v, mappedVectorField)

/-- The constructor of `SurfaceOneFormIntrinsicVectorQuantity`, with the Eigen objects
instrumented: the run stops where the code would leave the contract of the objects. -/
def SurfaceOneFormIntrinsicVectorQuantity.new {R : Type} [Field R]
    (solve : (Fin 3 → Fin 2 → R) → (Fin 3 → R) → R × R)
    (oneForm_ : EdgePtr → R) (parent : Parent R) (vectorType_ : VectorType) :
    Except EigenError (SurfaceOneFormIntrinsicVectorQuantity R) := do
  let base : SurfaceVectorQuantity R := SurfaceVectorQuantity.new MeshElement.FACE vectorType_
  let oneForm := parent.transfer.edge oneForm_
  let st ← parent.mesh.faces.foldlM (oneFormFace solve parent oneForm)
    (base, fun _ => (⟨0, 0⟩ : Complex R))
  Except.ok
    { toSurfaceVectorQuantity := st.1.finishConstructing parent.nextSubColor
      oneForm := oneForm
      mappedVectorField := st.2 }

/-- The sum of the squared residuals of the 3x2 system `A x = b` at `x`. -/
def residual {R : Type} [Field R] (A : Fin 3 → Fin 2 → R) (b : Fin 3 → R) (x : R × R) : R :=
  (A 0 0 * x.1 + A 0 1 * x.2 - b 0) ^ 2 + (A 1 0 * x.1 + A 1 1 * x.2 - b 1) ^ 2
    + (A 2 0 * x.1 + A 2 1 * x.2 - b 2) ^ 2

/-- Modelled from the spec: `colPivHouseholderQr().solve` of the Eigen library, whose code
is not part of the sources. The spec asks for a least-squares solve by QR that degrades to
a best-fit answer on rank-deficient systems. In exact arithmetic the column-pivoted QR solve
gives the unique least-squares solution at rank two, keeps only the pivot column (the one of
larger norm, the first on a tie) at rank one, and returns zero at rank zero. -/
def colPivHouseholderQrSolve {R : Type} [LinearOrderedField R]
    (A : Fin 3 → Fin 2 → R) (b : Fin 3 → R) : R × R :=
  let n0 := A 0 0 * A 0 0 + A 1 0 * A 1 0 + A 2 0 * A 2 0
  let n1 := A 0 1 * A 0 1 + A 1 1 * A 1 1 + A 2 1 * A 2 1
  let g := A 0 0 * A 0 1 + A 1 0 * A 1 1 + A 2 0 * A 2 1
  let p0 := A 0 0 * b 0 + A 1 0 * b 1 + A 2 0 * b 2
  let p1 := A 0 1 * b 0 + A 1 1 * b 1 + A 2 1 * b 2
  let det := n0 * n1 - g * g
  if det = 0 then
    if n1 ≤ n0 then
      if n0 = 0 then (0, 0) else (p0 / n0, 0)
    else (0, p1 / n1)
  else ((n1 * p0 - g * p1) / det, (n0 * p1 - g * p0) / det)

/-! ## The one-form constructor as it runs

The definitions above instrument the two Eigen objects: a store outside the three rows and
a read of a coefficient that was never assigned stop the run. The code itself checks
neither and has no error path. The definitions below follow the code without the
instrumentation; what the objects do outside their contract is left open. -/

/-- The memory of the objects `vectorMat` and `rhsVec`: six and three coefficients. -/
abbrev EigenSystem (R : Type) := (Fin 3 → Fin 2 → R) × (Fin 3 → R)

/-- What the fixed-size Eigen objects do where nothing checks them: the coefficients the two
objects hold when they are declared for a face, before any assignment, and what a store to
a row outside 0, 1, 2 does to the two objects. -/
structure EigenUnchecked (R : Type) where
  declared : FacePtr → EigenSystem R
  storeMatOutside : EigenSystem R → Nat → Fin 2 → R → EigenSystem R
  storeRhsOutside : EigenSystem R → Nat → R → EigenSystem R

/-- The assignment `vectorMat(i, j) = v`, unchecked. -/
def EigenUnchecked.setMat {R : Type} (E : EigenUnchecked R) (s : EigenSystem R) (i : Nat)
    (j : Fin 2) (v : R) : EigenSystem R :=
  if h : i < 3 then (fun a b => if a = ⟨i, h⟩ ∧ b = j then v else s.1 a b, s.2)
  else E.storeMatOutside s i j v

/-- The assignment `rhsVec[i] = v`, unchecked. -/
def EigenUnchecked.setRhs {R : Type} (E : EigenUnchecked R) (s : EigenSystem R) (i : Nat)
    (v : R) : EigenSystem R :=
  if h : i < 3 then (s.1, fun a => if a = ⟨i, h⟩ then v else s.2 a)
  else E.storeRhsOutside s i v

/-- The loop `for (HalfedgePtr he : f.adjacentHalfedges())` of the one-form constructor,
unchecked: the half-edges still to visit, the counter `i`, and the two objects. -/
def fillSystemUnchecked {R : Type} [Field R] (E : EigenUnchecked R) (mesh : SurfaceMesh)
    (gc : Geometry R) (oneForm : EdgePtr → R) (f : FacePtr) :
    List HalfedgePtr → Nat → EigenSystem R → EigenSystem R
  | [], _, s => s
  | he :: rest, i, s =>
    let signVal : R := if he = mesh.halfedge (mesh.edge he) then 1 else -1
    let s1 := E.setMat s i 0 (dot (gc.halfedgeVectors he) (gc.faceBases f).1)
    let s2 := E.setMat s1 i 1 (dot (gc.halfedgeVectors he) (gc.faceBases f).2)
    let s3 := E.setRhs s2 i (oneForm (mesh.edge he) * signVal)
    fillSystemUnchecked E mesh gc oneForm f rest (i + 1) s3

/-- The body of the loop over the faces in the one-form constructor, unchecked: the solve
runs on whatever the two objects hold after the inner loop. -/
def oneFormFaceUnchecked {R : Type} [Field R] (E : EigenUnchecked R)
    (solve : (Fin 3 → Fin 2 → R) → (Fin 3 → R) → R × R)
    (parent : Parent R) (oneForm : EdgePtr → R)
    (st : SurfaceVectorQuantity R × (FacePtr → Complex R)) (f : FacePtr) :
    SurfaceVectorQuantity R × (FacePtr → Complex R) :=
  let filled := fillSystemUnchecked E parent.mesh parent.geometry oneForm f
    (parent.mesh.adjacentHalfedges f) 0 (E.declared f)
  let x := solve filled.1 filled.2
  let approxVec : Complex R := ⟨x.1, x.2⟩
  let mappedVectorField := Function.update st.2 f approxVec
  let q1 := st.1.pushRoot (parent.geometry.barycenter f)
  let v := tangentVector parent.geometry f approxVec
  (q1.pushVector v, mappedVectorField)

/-- The constructor of `SurfaceOneFormIntrinsicVectorQuantity`, unchecked: it finishes on
every mesh. -/
def SurfaceOneFormIntrinsicVectorQuantity.newUnchecked {R : Type} [Field R]
    (E : EigenUnchecked R) (solve : (Fin 3 → Fin 2 → R) → (Fin 3 → R) → R × R)
    (oneForm_ : EdgePtr → R) (parent : Parent R) (vectorType_ : VectorType) :
    SurfaceOneFormIntrinsicVectorQuantity R :=
  let base : SurfaceVectorQuantity R := SurfaceVectorQuantity.new MeshElement.FACE vectorType_
  let oneForm := parent.transfer.edge oneForm_
  let st := parent.mesh.faces.foldl (oneFormFaceUnchecked E solve parent oneForm)
    (base, fun _ => (⟨0, 0⟩ : Complex R))
  { toSurfaceVectorQuantity := st.1.finishConstructing parent.nextSubColor
    oneForm := oneForm
    mappedVectorField := st.2 }

/-! ## The user interface and the frame loop -/

/-- What happens to a quantity between two frames: a frame is drawn, or one of the widgets
of `drawUI` and `drawSubUI` writes its member. -/
inductive Action (R : Type) where
  | draw (fs : FrameState R)
  | setEnabled (b : Bool)
  | setRibbonEnabled (b : Bool)
  | setColor (c : Vector3 R)
  | setLengthMult (v : R)
  | setRadiusMult (v : R)

/-- The widgets of `SurfaceVectorQuantity::drawUI` and of the two `drawSubUI` overrides:
each writes one member. The length slider exists only for non-ambient vectors. -/
def SurfaceVectorQuantity.applyUI {R : Type} (q : SurfaceVectorQuantity R) :
    Action R → SurfaceVectorQuantity R
  | Action.draw _ => q
  | Action.setEnabled b => { q with enabled := b }
  | Action.setRibbonEnabled b => { q with ribbonEnabled := b }
  | Action.setColor c => { q with vectorColor := c }
  | Action.setLengthMult v =>
    if q.vectorType ≠ VectorType.AMBIENT then { q with lengthMult := v } else q
  | Action.setRadiusMult v => { q with radiusMult := v }

/-- One action on a `SurfaceFaceIntrinsicVectorQuantity`. -/
def SurfaceFaceIntrinsicVectorQuantity.step {R : Type} [Field R]
    (mapFn : AffineRemapper R → Vector3 R → Vector3 R)
    (q : SurfaceFaceIntrinsicVectorQuantity R) (a : Action R) :
    SurfaceFaceIntrinsicVectorQuantity R × List (Effect R) :=
  match a with
  | Action.draw fs => q.draw mapFn fs
  | a => ({ q with toSurfaceVectorQuantity := q.toSurfaceVectorQuantity.applyUI a }, [])

/-- One action on a `SurfaceOneFormIntrinsicVectorQuantity`. -/
def SurfaceOneFormIntrinsicVectorQuantity.step {R : Type} [Field R]
    (mapFn : AffineRemapper R → Vector3 R → Vector3 R)
    (q : SurfaceOneFormIntrinsicVectorQuantity R) (a : Action R) :
    SurfaceOneFormIntrinsicVectorQuantity R × List (Effect R) :=
  match a with
  | Action.draw fs => q.draw mapFn fs
  | a => ({ q with toSurfaceVectorQuantity := q.toSurfaceVectorQuantity.applyUI a }, [])

/-- A sequence of actions on a `SurfaceFaceIntrinsicVectorQuantity`, with all the effects
issued along the way. -/
def SurfaceFaceIntrinsicVectorQuantity.run {R : Type} [Field R]
    (mapFn : AffineRemapper R → Vector3 R → Vector3 R) :
    SurfaceFaceIntrinsicVectorQuantity R → List (Action R) →
      SurfaceFaceIntrinsicVectorQuantity R × List (Effect R)
  | q, [] => (q, [])
  | q, a :: rest =>
    let r := SurfaceFaceIntrinsicVectorQuantity.step mapFn q a
    let r2 := SurfaceFaceIntrinsicVectorQuantity.run mapFn r.1 rest
    (r2.1, r.2 ++ r2.2)

/-- A sequence of actions on a `SurfaceOneFormIntrinsicVectorQuantity`, with all the
effects issued along the way. -/
def SurfaceOneFormIntrinsicVectorQuantity.run {R : Type} [Field R]
    (mapFn : AffineRemapper R → Vector3 R → Vector3 R) :
    SurfaceOneFormIntrinsicVectorQuantity R → List (Action R) →
      SurfaceOneFormIntrinsicVectorQuantity R × List (Effect R)
  | q, [] => (q, [])
  | q, a :: rest =>
    let r := SurfaceOneFormIntrinsicVectorQuantity.step mapFn q a
    let r2 := SurfaceOneFormIntrinsicVectorQuantity.run mapFn r.1 rest
    (r2.1, r.2 ++ r2.2)

/-- The number of `traceField` calls among some effects. -/
def traceCount {R : Type} : List (Effect R) → Nat
  | [] => 0
  | Effect.traceField _ _ :: rest => traceCount rest + 1
  | _ :: rest => traceCount rest

/-- The number of `ribbonArtist->draw()` calls among some effects. -/
def ribbonDrawCount {R : Type} : List (Effect R) → Nat
  | [] => 0
  | Effect.ribbonDraw _ :: rest => ribbonDrawCount rest + 1
  | _ :: rest => ribbonDrawCount rest

/-- One if the ribbon artist exists, zero otherwise. -/
def builtCount {R : Type} (q : SurfaceVectorQuantity R) : Nat :=
  if q.ribbonArtist.isSome then 1 else 0


/-! ## Statements about the reconstruction -/

/-- The value of the variable `angle` when iteration `k` of the rotation loop starts: the
loop enters with `angle0` and every iteration ends with `angle *= rot`. -/
def specAngle {R : Type} [Field R] (rot angle0 : Complex R) : Nat → Complex R
  | 0 => angle0
  | k + 1 => (specAngle rot angle0 k).mul rot

/-- A complex number of the sources as a complex number of Mathlib. -/
def Complex.toMathlib (z : Complex ℝ) : ℂ := ⟨z.real, z.imag⟩

/-- A complex number of Mathlib as a complex number of the sources. -/
def Complex.ofMathlib (z : ℂ) : Complex ℝ := ⟨z.re, z.im⟩

/-- A standard library over the reals built from a value for `PI`, an exponential and a
power on Mathlib's complex numbers. -/
def StdLib.lift (pi : ℝ) (cexp : ℂ → ℂ) (cpow : ℂ → ℂ → ℂ) : StdLib ℝ :=
  { PI := pi
    IM_I := ⟨0, 1⟩
    exp := fun z => Complex.ofMathlib (cexp z.toMathlib)
    pow := fun z y => Complex.ofMathlib (cpow z.toMathlib (y : ℂ)) }

/-- The standard library in exact arithmetic: `PI` is pi, `IM_I` is the imaginary unit,
`std::exp` is the complex exponential and `std::pow(z, y)` is the principal power. -/
def StdLib.Exact (S : StdLib ℝ) : Prop :=
  S.PI = Real.pi ∧ S.IM_I = ⟨0, 1⟩
    ∧ (∀ z, (S.exp z).toMathlib = Complex.exp z.toMathlib)
    ∧ (∀ z y, (S.pow z y).toMathlib = z.toMathlib ^ (y : ℂ))

/-- The matrix of the per-face system as the specification words it: row `i` holds the
projections of the vector of the `i`-th half-edge of the face onto the two basis vectors. -/
def specMatrix {R : Type} [Field R] (g : Geometry R) (f : FacePtr) (adj : List HalfedgePtr) :
    Fin 3 → Fin 2 → R :=
  fun i j =>
    dot (g.halfedgeVectors (adj.getD i.val 0))
      (if j = 0 then (g.faceBases f).1 else (g.faceBases f).2)

/-- The right-hand side of the per-face system as the specification words it: entry `i` is
the one-form on the edge of the `i`-th half-edge, negated when that half-edge is not the
canonical half-edge of its edge. -/
def specRhs {R : Type} [Field R] (mesh : SurfaceMesh) (oneForm : EdgePtr → R)
    (adj : List HalfedgePtr) : Fin 3 → R :=
  fun i =>
    oneForm (mesh.edge (adj.getD i.val 0))
      * (if adj.getD i.val 0 = mesh.halfedge (mesh.edge (adj.getD i.val 0)) then 1 else -1)

/-- The solution the one-form constructor computes for face `f`. -/
def faceSolution {R : Type} [Field R] (solve : (Fin 3 → Fin 2 → R) → (Fin 3 → R) → R × R)
    (parent : Parent R) (oneForm : EdgePtr → R) (f : FacePtr) : R × R :=
  solve (specMatrix parent.geometry f (parent.mesh.adjacentHalfedges f))
    (specRhs parent.mesh oneForm (parent.mesh.adjacentHalfedges f))

/-- The state of the loop over the faces after a face with three half-edges: one root, one
vector and one entry of `mappedVectorField` more. -/
def oneFormFaceResult {R : Type} [Field R]
    (solve : (Fin 3 → Fin 2 → R) → (Fin 3 → R) → R × R) (parent : Parent R)
    (oneForm : EdgePtr → R) (st : SurfaceVectorQuantity R × (FacePtr → Complex R))
    (f : FacePtr) : SurfaceVectorQuantity R × (FacePtr → Complex R) :=
  ((st.1.pushRoot (parent.geometry.barycenter f)).pushVector
      (tangentVector parent.geometry f
        ⟨(faceSolution solve parent oneForm f).1, (faceSolution solve parent oneForm f).2⟩),
    Function.update st.2 f
      ⟨(faceSolution solve parent oneForm f).1, (faceSolution solve parent oneForm f).2⟩)

/-- A solver returns a least-squares solution: no pair has a smaller sum of squared
residuals. -/
def IsLeastSquares {R : Type} [LinearOrderedField R]
    (solve : (Fin 3 → Fin 2 → R) → (Fin 3 → R) → R × R) : Prop :=
  ∀ A b y, residual A b (solve A b) ≤ residual A b y

/-- The cross product of two vectors. -/
def cross {R : Type} [Field R] (a b : Vector3 R) : Vector3 R :=
  ⟨a.y * b.z - a.z * b.y, a.z * b.x - a.x * b.z, a.x * b.y - a.y * b.x⟩

/-- Two vectors are parallel: their cross product vanishes. -/
def Parallel {R : Type} [Field R] (a b : Vector3 R) : Prop :=
  cross a b = ⟨0, 0, 0⟩

/-- A vector lies in the plane spanned by `b0` and `b1`. -/
def InSpan {R : Type} [Field R] (b0 b1 v : Vector3 R) : Prop :=
  ∃ s t : R, v = (b0.mul s).add (b1.mul t)

/-- The pair `(b0, b1)` is orthonormal. -/
def Orthonormal {R : Type} [Field R] (b0 b1 : Vector3 R) : Prop :=
  dot b0 b0 = 1 ∧ dot b1 b1 = 1 ∧ dot b0 b1 = 0

/-! ## Concrete inputs for evaluation -/

/-- A remapper that maps every vector to itself. -/
def identityMap {R : Type} : AffineRemapper R → Vector3 R → Vector3 R :=
  fun _ v => v

/-- One triangle: half-edges 0, 1, 2 on edges 0, 1, 2; the canonical half-edge of edge 2 is
the twin half-edge 5, so half-edge 2 runs against its edge. -/
def triangleMesh : SurfaceMesh :=
  { vertices := [0, 1, 2]
    faces := [0]
    adjacentHalfedges := fun _ => [0, 1, 2]
    edge := fun he => if he = 5 then 2 else he
    halfedge := fun e => if e = 2 then 5 else e }

/-- The triangle with corners (0,0,0), (1,0,0), (0,1,0) and the face basis (x, y). -/
def triangleGeometry {R : Type} [Field R] : Geometry R :=
  { position := fun v => if v = 1 then ⟨1, 0, 0⟩ else if v = 2 then ⟨0, 1, 0⟩ else ⟨0, 0, 0⟩
    barycenter := fun _ => ⟨1 / 3, 1 / 3, 0⟩
    faceBases := fun _ => (⟨1, 0, 0⟩, ⟨0, 1, 0⟩)
    halfedgeVectors := fun he =>
      if he = 0 then ⟨1, 0, 0⟩ else if he = 1 then ⟨-1, 1, 0⟩ else ⟨0, -1, 0⟩ }

/-- A data transfer that leaves the data as they are. -/
def identityTransfer : Transfer :=
  { vertex := fun d => d
    face := fun d => d
    edge := fun d => d }

/-- The parent structure of the one-triangle mesh. -/
def triangleParent {R : Type} [Field R] : Parent R :=
  { mesh := triangleMesh
    geometry := triangleGeometry
    transfer := identityTransfer
    nextSubColor := ⟨0, 0, 0⟩ }

/-- A frame whose global length scale is 2. -/
def frameTwo : FrameState ℚ :=
  { viewMat := []
    projMat := []
    eyePos := ⟨0, 0, 0⟩
    center := ⟨0, 0, 0⟩
    lengthScale := 2 }

/-- An enabled ambient vertex quantity on the one-triangle mesh. -/
def ambientQuantity : SurfaceVectorQuantity ℚ :=
  ((SurfaceVertexVectorQuantity.new (fun _ => ⟨1, 0, 0⟩) triangleParent
    VectorType.AMBIENT).toSurfaceVectorQuantity).applyUI (Action.setEnabled true)

/-- The program `ambientQuantity` draws with in `frameTwo`. -/
def ambientProgram : GLProgram ℚ :=
  { a_vector := [⟨1, 0, 0⟩, ⟨1, 0, 0⟩, ⟨1, 0, 0⟩]
    a_position := [⟨0, 0, 0⟩, ⟨1, 0, 0⟩, ⟨0, 1, 0⟩]
    uniforms := some
      { u_viewMatrix := []
        u_projMatrix := []
        u_eye := ⟨0, 0, 0⟩
        u_lightCenter := ⟨0, 0, 0⟩
        u_lightDist := 10
        u_radius := 1 / 1000
        u_color := ⟨0, 0, 0⟩
        u_lengthMult := 1 } }

/-- A standard library over the rationals for evaluation at symmetry order 4: `exp` returns
the quarter turn `i` and `pow` returns its base. -/
def quarterTurnLib : StdLib ℚ :=
  { PI := 3
    IM_I := ⟨0, 1⟩
    exp := fun _ => ⟨0, 1⟩
    pow := fun z _ => z }

/-- A freshly constructed intrinsic face quantity of symmetry order 4 on the triangle. -/
def crossFieldQuantity : SurfaceFaceIntrinsicVectorQuantity ℚ :=
  SurfaceFaceIntrinsicVectorQuantity.new quarterTurnLib (fun _ => ⟨1, 0⟩) triangleParent 4
    VectorType.STANDARD

/-- The fresh quantity `crossFieldQuantity` after the ribbon box has been ticked; it is
still disabled. -/
def ribbonOnlyQuantity : SurfaceFaceIntrinsicVectorQuantity ℚ :=
  (SurfaceFaceIntrinsicVectorQuantity.step identityMap crossFieldQuantity
    (Action.setRibbonEnabled true)).1

/-- A session that enables the quantity, draws, switches the ribbon on, off and on again,
and draws after each switch. -/
def toggleSession : List (Action ℚ) :=
  [Action.setEnabled true, Action.draw frameTwo, Action.setRibbonEnabled true,
    Action.draw frameTwo, Action.draw frameTwo, Action.setRibbonEnabled false,
    Action.draw frameTwo, Action.setRibbonEnabled true, Action.draw frameTwo,
    Action.setEnabled false, Action.draw frameTwo]

/-- One face with four half-edges. -/
def quadMesh : SurfaceMesh :=
  { vertices := [0, 1, 2, 3]
    faces := [0]
    adjacentHalfedges := fun _ => [0, 1, 2, 3]
    edge := fun he => he
    halfedge := fun e => e }

/-- One face with two half-edges. -/
def digonMesh : SurfaceMesh :=
  { vertices := [0, 1]
    faces := [0]
    adjacentHalfedges := fun _ => [0, 1]
    edge := fun he => he
    halfedge := fun e => e }

/-- The parent structure of the triangle geometry over another mesh. -/
def parentOf {R : Type} [Field R] (mesh : SurfaceMesh) : Parent R :=
  { mesh := mesh
    geometry := triangleGeometry
    transfer := identityTransfer
    nextSubColor := ⟨0, 0, 0⟩ }

/-- A one-form on the triangle: 1 on edge 0, 2 on edge 1, 3 on edge 2. -/
def sampleOneForm {R : Type} [Field R] : EdgePtr → R :=
  fun e => if e = 0 then 1 else if e = 1 then 2 else 3

/-- One triangle whose three half-edges are the canonical half-edges of their edges. -/
def canonicalTriangleMesh : SurfaceMesh :=
  { vertices := [0, 1, 2]
    faces := [0]
    adjacentHalfedges := fun _ => [0, 1, 2]
    edge := fun he => he
    halfedge := fun e => e }

/-- The equilateral triangle of side 1 in the plane z = 0 with the face basis (x, y); the
argument `s` stands for half the square root of 3. -/
def equilateralParent {R : Type} [Field R] (s : R) : Parent R :=
  { mesh := canonicalTriangleMesh
    geometry :=
      { position := fun v =>
          if v = 1 then ⟨1, 0, 0⟩ else if v = 2 then ⟨1 / 2, s, 0⟩ else ⟨0, 0, 0⟩
        barycenter := fun _ => ⟨1 / 2, s / 3, 0⟩
        faceBases := fun _ => (⟨1, 0, 0⟩, ⟨0, 1, 0⟩)
        halfedgeVectors := fun he =>
          if he = 0 then ⟨1, 0, 0⟩ else if he = 1 then ⟨-1 / 2, s, 0⟩ else ⟨-1 / 2, -s, 0⟩ }
    transfer := identityTransfer
    nextSubColor := ⟨0, 0, 0⟩ }

/-- The one-form that is 1 on edge 0 and 0 on the other edges. -/
def unitOneForm {R : Type} [Field R] : EdgePtr → R :=
  fun e => if e = 0 then 1 else 0

/-- Eigen objects that hold zeros when declared and drop a store outside the three rows. -/
def zeroedEigen {R : Type} [Field R] : EigenUnchecked R :=
  { declared := fun _ => (fun _ _ => 0, fun _ => 0)
    storeMatOutside := fun s _ _ _ => s
    storeRhsOutside := fun s _ _ => s }

/-- A mesh with a face of two half-edges, a triangle and a face of four half-edges. -/
def mixedMesh : SurfaceMesh :=
  { vertices := [0, 1, 2, 3]
    faces := [0, 1, 2]
    adjacentHalfedges := fun f =>
      if f = 0 then [0, 1] else if f = 1 then [0, 1, 2] else [0, 1, 2, 3]
    edge := fun he => he
    halfedge := fun e => e }
/-! ## Drawing: lemmas -/

theorem traceCount_append {R : Type} (xs ys : List (Effect R)) :
    traceCount (xs ++ ys) = traceCount xs + traceCount ys := by
  induction xs with
  | nil => simp [traceCount]
  | cons e rest ih =>
    cases e
    all_goals simp [traceCount, ih]
    all_goals omega

theorem ribbonDrawCount_append {R : Type} (xs ys : List (Effect R)) :
    ribbonDrawCount (xs ++ ys) = ribbonDrawCount xs + ribbonDrawCount ys := by
  induction xs with
  | nil => simp [ribbonDrawCount]
  | cons e rest ih =>
    cases e
    all_goals simp [ribbonDrawCount, ih]
    all_goals omega

/-- The base-class draw leaves the flags and the ribbon artist alone and issues neither a
trace nor a ribbon draw. -/
theorem base_draw_frame {R : Type} [Field R] (q : SurfaceVectorQuantity R)
    (mapFn : AffineRemapper R → Vector3 R → Vector3 R) (fs : FrameState R) :
    (q.draw mapFn fs).1.ribbonArtist = q.ribbonArtist
      ∧ (q.draw mapFn fs).1.enabled = q.enabled
      ∧ (q.draw mapFn fs).1.ribbonEnabled = q.ribbonEnabled
      ∧ traceCount (q.draw mapFn fs).2 = 0
      ∧ ribbonDrawCount (q.draw mapFn fs).2 = 0 := by
  unfold SurfaceVectorQuantity.draw
  by_cases h : (!q.enabled || q.ribbonEnabled) = true
  · simp [h, traceCount, ribbonDrawCount]
  · by_cases hp : q.program.isNone = true
    · simp [h, hp, SurfaceVectorQuantity.prepare, traceCount, ribbonDrawCount]
    · rw [if_neg h, if_neg hp]
      cases hq : q.program with
      | none => simp [hq] at hp
      | some p => simp [hq, traceCount, ribbonDrawCount]

/-- The ribbon block: the trace runs exactly when the artist goes from absent to present, an
existing artist is kept, and the flags are not written. -/
theorem ribbonDraw_spec {R : Type} (base : SurfaceVectorQuantity R) (n : Int) :
    builtCount base + traceCount (ribbonDraw base n).2 = builtCount (ribbonDraw base n).1
      ∧ (∀ a, base.ribbonArtist = some a → (ribbonDraw base n).1.ribbonArtist = some a)
      ∧ (base.ribbonEnabled = false →
          (ribbonDraw base n).1.ribbonArtist = base.ribbonArtist
            ∧ traceCount (ribbonDraw base n).2 = 0)
      ∧ (base.ribbonEnabled = true → (ribbonDraw base n).1.ribbonArtist.isSome = true)
      ∧ ((base.ribbonEnabled = false ∨ base.enabled = false) →
          ribbonDrawCount (ribbonDraw base n).2 = 0) := by
  unfold ribbonDraw builtCount
  cases hr : base.ribbonEnabled <;> cases ha : base.ribbonArtist <;> cases he : base.enabled <;>
    simp [hr, ha, he, traceCount, ribbonDrawCount]

/-! ## Drawing: the glyph length multiplier -/

/-- What the base-class draw issues: nothing when disabled or in ribbon mode, else one glyph
draw whose length multiplier is 1 for ambient vectors and `lengthMult * lengthScale` for the
others. -/
theorem base_draw_effects {R : Type} [Field R] (q : SurfaceVectorQuantity R)
    (mapFn : AffineRemapper R → Vector3 R → Vector3 R) (fs : FrameState R)
    (p : GLProgram R) (hp : Effect.programDraw p ∈ (q.draw mapFn fs).2) :
    Option.map Uniforms.u_lengthMult p.uniforms
      = some (if q.vectorType = VectorType.AMBIENT then 1 else q.lengthMult * fs.lengthScale) := by
  unfold SurfaceVectorQuantity.draw at hp
  by_cases h : (!q.enabled || q.ribbonEnabled) = true
  · simp [h] at hp
  · by_cases hn : q.program.isNone = true
    · simp [h, hn, SurfaceVectorQuantity.prepare] at hp
      subst hp
      simp
    · rw [if_neg h, if_neg hn] at hp
      cases hq : q.program with
      | none => simp [hq] at hn
      | some p0 =>
        simp [hq] at hp
        subst hp
        simp

/-- C6 (as amended): for an AMBIENT quantity, every glyph draw issued by
`SurfaceVectorQuantity::draw` carries the length multiplier 1, whatever `lengthMult` and the
global length scale are. -/
theorem draw_ambient_lengthMult_one {R : Type} [Field R] (q : SurfaceVectorQuantity R)
    (mapFn : AffineRemapper R → Vector3 R → Vector3 R) (fs : FrameState R)
    (p : GLProgram R) (hA : q.vectorType = VectorType.AMBIENT)
    (hp : Effect.programDraw p ∈ (q.draw mapFn fs).2) :
    Option.map Uniforms.u_lengthMult p.uniforms = some 1 := by
  have h := base_draw_effects q mapFn fs p hp
  rw [if_pos hA] at h
  exact h

theorem ambientQuantity_draw :
    (ambientQuantity.draw identityMap frameTwo).2 = [Effect.programDraw ambientProgram] := by
  simp [SurfaceVectorQuantity.draw, ambientQuantity, SurfaceVectorQuantity.applyUI,
    SurfaceVertexVectorQuantity.new, SurfaceVectorQuantity.new,
    SurfaceVectorQuantity.finishConstructing, SurfaceVectorQuantity.prepare,
    SurfaceVectorQuantity.pushRoot, SurfaceVectorQuantity.pushVector, triangleParent,
    triangleMesh, triangleGeometry, identityTransfer, identityMap, frameTwo, ambientProgram]
  norm_num

/-- C6, witness: the ambient quantity on the triangle, drawn at length scale 2. -/
theorem draw_ambient_lengthMult_one_witness :
    ambientQuantity.vectorType = VectorType.AMBIENT
      ∧ Effect.programDraw ambientProgram ∈ (ambientQuantity.draw identityMap frameTwo).2
      ∧ Option.map Uniforms.u_lengthMult ambientProgram.uniforms = some 1 :=
  ⟨rfl, by simp [ambientQuantity_draw],
    draw_ambient_lengthMult_one ambientQuantity identityMap frameTwo ambientProgram rfl
      (by simp [ambientQuantity_draw])⟩

/-- C6, counterexample: at global length scale 2 the ambient glyph draw carries the length
multiplier 1, not 1 x 2. -/
theorem draw_ambient_lengthMult_counterexample :
    ¬ (∀ (q : SurfaceVectorQuantity ℚ) (mapFn : AffineRemapper ℚ → Vector3 ℚ → Vector3 ℚ)
        (fs : FrameState ℚ) (p : GLProgram ℚ), q.vectorType = VectorType.AMBIENT →
        Effect.programDraw p ∈ (q.draw mapFn fs).2 →
        Option.map Uniforms.u_lengthMult p.uniforms = some (1 * fs.lengthScale)) := by
  intro h
  have h1 := h ambientQuantity identityMap frameTwo ambientProgram rfl
    (by simp [ambientQuantity_draw])
  simp [ambientProgram, frameTwo] at h1

/-! ## Drawing: the ribbon -/

theorem builtCount_le_one {R : Type} (q : SurfaceVectorQuantity R) : builtCount q ≤ 1 := by
  unfold builtCount
  split <;> simp

/-- The base-class draw followed by the ribbon block, as in both `draw` overrides. -/
theorem draw_ribbon_spec {R : Type} [Field R] (q : SurfaceVectorQuantity R)
    (mapFn : AffineRemapper R → Vector3 R → Vector3 R) (fs : FrameState R) (n : Int) :
    builtCount q + traceCount ((q.draw mapFn fs).2 ++ (ribbonDraw (q.draw mapFn fs).1 n).2)
        = builtCount (ribbonDraw (q.draw mapFn fs).1 n).1
      ∧ (∀ a, q.ribbonArtist = some a →
          (ribbonDraw (q.draw mapFn fs).1 n).1.ribbonArtist = some a)
      ∧ (q.ribbonEnabled = false →
          (ribbonDraw (q.draw mapFn fs).1 n).1.ribbonArtist = q.ribbonArtist
            ∧ traceCount ((q.draw mapFn fs).2 ++ (ribbonDraw (q.draw mapFn fs).1 n).2) = 0)
      ∧ (q.ribbonEnabled = true →
          (ribbonDraw (q.draw mapFn fs).1 n).1.ribbonArtist.isSome = true)
      ∧ ((q.ribbonEnabled = false ∨ q.enabled = false) →
          ribbonDrawCount ((q.draw mapFn fs).2 ++ (ribbonDraw (q.draw mapFn fs).1 n).2) = 0) := by
  obtain ⟨hA, hE, hR, hT, hD⟩ := base_draw_frame q mapFn fs
  obtain ⟨h1, h2, h3, h4, h5⟩ := ribbonDraw_spec (q.draw mapFn fs).1 n
  have hB : builtCount (q.draw mapFn fs).1 = builtCount q := by
    unfold builtCount
    rw [hA]
  rw [traceCount_append, ribbonDrawCount_append, hT, hD]
  rw [hB] at h1
  rw [hA] at h2 h3
  rw [hR] at h3 h4 h5
  rw [hE] at h5
  refine ⟨by omega, h2, ?_, h4, ?_⟩
  · intro h
    exact ⟨(h3 h).1, by simpa using (h3 h).2⟩
  · intro h
    simpa using h5 h

/-- A widget writes neither the ribbon artist nor anything the tracer would notice. -/
theorem applyUI_ribbonArtist {R : Type} (q : SurfaceVectorQuantity R) (a : Action R) :
    (q.applyUI a).ribbonArtist = q.ribbonArtist := by
  cases a <;> simp [SurfaceVectorQuantity.applyUI]
  split <;> rfl

theorem faceIntrinsic_step_spec {R : Type} [Field R]
    (mapFn : AffineRemapper R → Vector3 R → Vector3 R)
    (q : SurfaceFaceIntrinsicVectorQuantity R) (a : Action R) :
    builtCount q.toSurfaceVectorQuantity
        + traceCount (SurfaceFaceIntrinsicVectorQuantity.step mapFn q a).2
        = builtCount (SurfaceFaceIntrinsicVectorQuantity.step mapFn q a).1.toSurfaceVectorQuantity
      ∧ (∀ r, q.ribbonArtist = some r →
          (SurfaceFaceIntrinsicVectorQuantity.step mapFn q a).1.ribbonArtist = some r) := by
  cases a with
  | draw fs =>
    have h := draw_ribbon_spec q.toSurfaceVectorQuantity mapFn fs q.nSym
    exact ⟨h.1, h.2.1⟩
  | _ =>
    simp [SurfaceFaceIntrinsicVectorQuantity.step, traceCount, builtCount,
      applyUI_ribbonArtist]

theorem oneForm_step_spec {R : Type} [Field R]
    (mapFn : AffineRemapper R → Vector3 R → Vector3 R)
    (q : SurfaceOneFormIntrinsicVectorQuantity R) (a : Action R) :
    builtCount q.toSurfaceVectorQuantity
        + traceCount (SurfaceOneFormIntrinsicVectorQuantity.step mapFn q a).2
        = builtCount (SurfaceOneFormIntrinsicVectorQuantity.step mapFn q a).1.toSurfaceVectorQuantity
      ∧ (∀ r, q.ribbonArtist = some r →
          (SurfaceOneFormIntrinsicVectorQuantity.step mapFn q a).1.ribbonArtist = some r) := by
  cases a with
  | draw fs =>
    have h := draw_ribbon_spec q.toSurfaceVectorQuantity mapFn fs 1
    exact ⟨h.1, h.2.1⟩
  | _ =>
    simp [SurfaceOneFormIntrinsicVectorQuantity.step, traceCount, builtCount,
      applyUI_ribbonArtist]

theorem faceIntrinsic_run_spec {R : Type} [Field R]
    (mapFn : AffineRemapper R → Vector3 R → Vector3 R) (acts : List (Action R)) :
    ∀ q : SurfaceFaceIntrinsicVectorQuantity R,
      builtCount q.toSurfaceVectorQuantity
          + traceCount (SurfaceFaceIntrinsicVectorQuantity.run mapFn q acts).2
          = builtCount (SurfaceFaceIntrinsicVectorQuantity.run mapFn q acts).1.toSurfaceVectorQuantity
        ∧ (∀ r, q.ribbonArtist = some r →
            (SurfaceFaceIntrinsicVectorQuantity.run mapFn q acts).1.ribbonArtist = some r) := by
  induction acts with
  | nil => intro q; simp [SurfaceFaceIntrinsicVectorQuantity.run, traceCount]
  | cons a rest ih =>
    intro q
    obtain ⟨h1, h2⟩ := faceIntrinsic_step_spec mapFn q a
    obtain ⟨h3, h4⟩ := ih (SurfaceFaceIntrinsicVectorQuantity.step mapFn q a).1
    simp only [SurfaceFaceIntrinsicVectorQuantity.run, traceCount_append]
    exact ⟨by omega, fun r hr => h4 r (h2 r hr)⟩

theorem oneForm_run_spec {R : Type} [Field R]
    (mapFn : AffineRemapper R → Vector3 R → Vector3 R) (acts : List (Action R)) :
    ∀ q : SurfaceOneFormIntrinsicVectorQuantity R,
      builtCount q.toSurfaceVectorQuantity
          + traceCount (SurfaceOneFormIntrinsicVectorQuantity.run mapFn q acts).2
          = builtCount (SurfaceOneFormIntrinsicVectorQuantity.run mapFn q acts).1.toSurfaceVectorQuantity
        ∧ (∀ r, q.ribbonArtist = some r →
            (SurfaceOneFormIntrinsicVectorQuantity.run mapFn q acts).1.ribbonArtist = some r) := by
  induction acts with
  | nil => intro q; simp [SurfaceOneFormIntrinsicVectorQuantity.run, traceCount]
  | cons a rest ih =>
    intro q
    obtain ⟨h1, h2⟩ := oneForm_step_spec mapFn q a
    obtain ⟨h3, h4⟩ := ih (SurfaceOneFormIntrinsicVectorQuantity.step mapFn q a).1
    simp only [SurfaceOneFormIntrinsicVectorQuantity.run, traceCount_append]
    exact ⟨by omega, fun r hr => h4 r (h2 r hr)⟩

/-- C5: for both intrinsic quantities, along any sequence of draws and widget writes that
starts without a ribbon artist, `traceField` runs at most once; and from any state that has
a ribbon artist, no sequence runs the trace again or replaces or resets the artist. -/
theorem ribbon_built_at_most_once {R : Type} [Field R]
    (mapFn : AffineRemapper R → Vector3 R → Vector3 R) (acts : List (Action R)) :
    (∀ q : SurfaceFaceIntrinsicVectorQuantity R, q.ribbonArtist = none →
        traceCount (SurfaceFaceIntrinsicVectorQuantity.run mapFn q acts).2 ≤ 1)
      ∧ (∀ (q : SurfaceFaceIntrinsicVectorQuantity R) (r : RibbonArtist),
          q.ribbonArtist = some r →
          (SurfaceFaceIntrinsicVectorQuantity.run mapFn q acts).1.ribbonArtist = some r
            ∧ traceCount (SurfaceFaceIntrinsicVectorQuantity.run mapFn q acts).2 = 0)
      ∧ (∀ q : SurfaceOneFormIntrinsicVectorQuantity R, q.ribbonArtist = none →
          traceCount (SurfaceOneFormIntrinsicVectorQuantity.run mapFn q acts).2 ≤ 1)
      ∧ (∀ (q : SurfaceOneFormIntrinsicVectorQuantity R) (r : RibbonArtist),
          q.ribbonArtist = some r →
          (SurfaceOneFormIntrinsicVectorQuantity.run mapFn q acts).1.ribbonArtist = some r
            ∧ traceCount (SurfaceOneFormIntrinsicVectorQuantity.run mapFn q acts).2 = 0) := by
  refine ⟨?_, ?_, ?_, ?_⟩
  · intro q _
    obtain ⟨h1, _⟩ := faceIntrinsic_run_spec mapFn acts q
    have h2 := builtCount_le_one
      (SurfaceFaceIntrinsicVectorQuantity.run mapFn q acts).1.toSurfaceVectorQuantity
    omega
  · intro q r hr
    obtain ⟨h1, h2⟩ := faceIntrinsic_run_spec mapFn acts q
    have h3 := h2 r hr
    refine ⟨h3, ?_⟩
    simp only [builtCount, hr, h3, Option.isSome_some, if_true] at h1
    omega
  · intro q _
    obtain ⟨h1, _⟩ := oneForm_run_spec mapFn acts q
    have h2 := builtCount_le_one
      (SurfaceOneFormIntrinsicVectorQuantity.run mapFn q acts).1.toSurfaceVectorQuantity
    omega
  · intro q r hr
    obtain ⟨h1, h2⟩ := oneForm_run_spec mapFn acts q
    have h3 := h2 r hr
    refine ⟨h3, ?_⟩
    simp only [builtCount, hr, h3, Option.isSome_some, if_true] at h1
    omega

/-- C5, witness: the fresh symmetry-4 quantity on the triangle, taken through a session
that switches the ribbon on, off and on again. -/
theorem ribbon_built_at_most_once_witness :
    crossFieldQuantity.ribbonArtist = none
      ∧ traceCount
          (SurfaceFaceIntrinsicVectorQuantity.run identityMap crossFieldQuantity toggleSession).2
        ≤ 1 :=
  ⟨rfl, (ribbon_built_at_most_once identityMap toggleSession).1 crossFieldQuantity rfl⟩

/-- C7 (as amended): for both intrinsic quantities, a `draw` in a state where `ribbonEnabled`
or `enabled` is false issues no ribbon draw. If `ribbonEnabled` is false it also leaves the
ribbon artist as it was and runs no trace. If `ribbonEnabled` is true (so `enabled` is
false) the ribbon artist exists afterwards, an existing one is kept, and the trace runs
exactly when there was none before. -/
theorem ribbon_draw_needs_both_flags {R : Type} [Field R]
    (mapFn : AffineRemapper R → Vector3 R → Vector3 R) (fs : FrameState R) :
    (∀ q : SurfaceFaceIntrinsicVectorQuantity R,
        (q.ribbonEnabled = false ∨ q.enabled = false) →
        ribbonDrawCount (q.draw mapFn fs).2 = 0
          ∧ (q.ribbonEnabled = false →
              (q.draw mapFn fs).1.ribbonArtist = q.ribbonArtist
                ∧ traceCount (q.draw mapFn fs).2 = 0)
          ∧ (q.ribbonEnabled = true →
              (q.draw mapFn fs).1.ribbonArtist.isSome = true
                ∧ (∀ r, q.ribbonArtist = some r → (q.draw mapFn fs).1.ribbonArtist = some r)
                ∧ traceCount (q.draw mapFn fs).2 = if q.ribbonArtist.isSome then 0 else 1))
      ∧ (∀ q : SurfaceOneFormIntrinsicVectorQuantity R,
          (q.ribbonEnabled = false ∨ q.enabled = false) →
          ribbonDrawCount (q.draw mapFn fs).2 = 0
            ∧ (q.ribbonEnabled = false →
                (q.draw mapFn fs).1.ribbonArtist = q.ribbonArtist
                  ∧ traceCount (q.draw mapFn fs).2 = 0)
            ∧ (q.ribbonEnabled = true →
                (q.draw mapFn fs).1.ribbonArtist.isSome = true
                  ∧ (∀ r, q.ribbonArtist = some r → (q.draw mapFn fs).1.ribbonArtist = some r)
                  ∧ traceCount (q.draw mapFn fs).2 = if q.ribbonArtist.isSome then 0 else 1)) := by
  constructor
  · intro q hq
    obtain ⟨h1, h2, h3, h4, h5⟩ := draw_ribbon_spec q.toSurfaceVectorQuantity mapFn fs q.nSym
    refine ⟨h5 hq, h3, fun ht => ⟨h4 ht, h2, ?_⟩⟩
    have h6 := h4 ht
    have h7 : traceCount (q.draw mapFn fs).2
        = traceCount ((q.toSurfaceVectorQuantity.draw mapFn fs).2
            ++ (ribbonDraw (q.toSurfaceVectorQuantity.draw mapFn fs).1 q.nSym).2) := rfl
    rw [h7]
    simp only [builtCount, h6, if_true] at h1
    by_cases hs : q.ribbonArtist.isSome = true
    · rw [if_pos hs] at h1 ⊢
      omega
    · rw [if_neg hs] at h1 ⊢
      omega
  · intro q hq
    obtain ⟨h1, h2, h3, h4, h5⟩ := draw_ribbon_spec q.toSurfaceVectorQuantity mapFn fs 1
    refine ⟨h5 hq, h3, fun ht => ⟨h4 ht, h2, ?_⟩⟩
    have h6 := h4 ht
    have h7 : traceCount (q.draw mapFn fs).2
        = traceCount ((q.toSurfaceVectorQuantity.draw mapFn fs).2
            ++ (ribbonDraw (q.toSurfaceVectorQuantity.draw mapFn fs).1 1).2) := rfl
    rw [h7]
    simp only [builtCount, h6, if_true] at h1
    by_cases hs : q.ribbonArtist.isSome = true
    · rw [if_pos hs] at h1 ⊢
      omega
    · rw [if_neg hs] at h1 ⊢
      omega

/-- C7, witness: the disabled quantity in ribbon mode; its first draw issues no ribbon draw
but runs the trace. -/
theorem ribbon_draw_needs_both_flags_witness :
    (ribbonOnlyQuantity.ribbonEnabled = false ∨ ribbonOnlyQuantity.enabled = false)
      ∧ ribbonDrawCount (ribbonOnlyQuantity.draw identityMap frameTwo).2 = 0
      ∧ (ribbonOnlyQuantity.ribbonEnabled = true →
          traceCount (ribbonOnlyQuantity.draw identityMap frameTwo).2
            = if ribbonOnlyQuantity.ribbonArtist.isSome then 0 else 1) :=
  ⟨Or.inr rfl,
    ((ribbon_draw_needs_both_flags identityMap frameTwo).1 ribbonOnlyQuantity (Or.inr rfl)).1,
    fun h =>
      (((ribbon_draw_needs_both_flags identityMap frameTwo).1 ribbonOnlyQuantity
        (Or.inr rfl)).2.2 h).2.2⟩

/-- C7, counterexample: a disabled quantity in ribbon mode without a ribbon artist; `draw`
runs the trace and builds the artist although `enabled` is false. -/
theorem ribbon_draw_needs_both_flags_counterexample :
    (ribbonOnlyQuantity.ribbonEnabled = false ∨ ribbonOnlyQuantity.enabled = false)
      ∧ ribbonOnlyQuantity.ribbonArtist = none
      ∧ (ribbonOnlyQuantity.draw identityMap frameTwo).1.ribbonArtist = some ⟨4, 2500⟩
      ∧ traceCount (ribbonOnlyQuantity.draw identityMap frameTwo).2 = 1 := by
  refine ⟨Or.inr rfl, rfl, ?_, ?_⟩
  · rfl
  · rfl

/-! ## Constructors: the sample sequences -/

@[simp]
theorem pushRoot_vectorRoots {R : Type} (q : SurfaceVectorQuantity R) (r : Vector3 R) :
    (q.pushRoot r).vectorRoots = q.vectorRoots ++ [r] := rfl

@[simp]
theorem pushRoot_vectors {R : Type} (q : SurfaceVectorQuantity R) (r : Vector3 R) :
    (q.pushRoot r).vectors = q.vectors := rfl

@[simp]
theorem pushVector_vectorRoots {R : Type} (q : SurfaceVectorQuantity R)
    (v : Vector3 R) : (q.pushVector v).vectorRoots = q.vectorRoots := rfl

@[simp]
theorem pushVector_vectors {R : Type} (q : SurfaceVectorQuantity R) (v : Vector3 R) :
    (q.pushVector v).vectors = q.vectors ++ [v] := rfl

@[simp]
theorem finishConstructing_vectorRoots {R : Type} [Field R]
    (q : SurfaceVectorQuantity R) (c : Vector3 R) :
    (q.finishConstructing c).vectorRoots = q.vectorRoots := rfl

@[simp]
theorem finishConstructing_vectors {R : Type} [Field R]
    (q : SurfaceVectorQuantity R) (c : Vector3 R) :
    (q.finishConstructing c).vectors = q.vectors := rfl

/-- A loop that pushes one root and one vector per element. -/
theorem foldl_push {R α : Type} (root vec : α → Vector3 R) (l : List α) :
    ∀ q : SurfaceVectorQuantity R,
      (l.foldl (fun q a => (q.pushRoot (root a)).pushVector (vec a)) q).vectorRoots
          = q.vectorRoots ++ l.map root
        ∧ (l.foldl (fun q a => (q.pushRoot (root a)).pushVector (vec a)) q).vectors
          = q.vectors ++ l.map vec := by
  induction l with
  | nil => intro q; simp
  | cons a rest ih =>
    intro q
    obtain ⟨h1, h2⟩ := ih ((q.pushRoot (root a)).pushVector (vec a))
    simp only [List.foldl_cons, h1, h2]
    simp

theorem specAngle_shift {R : Type} [Field R] (rot z : Complex R) (k : Nat) :
    specAngle rot (z.mul rot) k = specAngle rot z (k + 1) := by
  induction k with
  | zero => rfl
  | succ k ih => simp only [specAngle] at ih ⊢; rw [ih]

/-- The rotation loop pushes `m` copies of the barycenter and the tangent vectors of the
`m` successive angles. -/
theorem rotLoop_spec {R : Type} [Field R] (g : Geometry R) (f : FacePtr) (rot : Complex R)
    (m : Nat) :
    ∀ (angle : Complex R) (q : SurfaceVectorQuantity R),
      (rotLoop g f rot m angle q).vectorRoots
          = q.vectorRoots ++ List.replicate m (g.barycenter f)
        ∧ (rotLoop g f rot m angle q).vectors
          = q.vectors ++ (List.range m).map (fun k => tangentVector g f (specAngle rot angle k)) := by
  induction m with
  | zero => intro angle q; simp [rotLoop]
  | succ m ih =>
    intro angle q
    obtain ⟨h1, h2⟩ := ih (angle.mul rot)
      ((q.pushRoot (g.barycenter f)).pushVector (tangentVector g f angle))
    simp only [rotLoop, h1, h2]
    constructor
    · simp [List.replicate_succ]
    · simp [List.range_succ_eq_map, specAngle_shift, specAngle, Function.comp_def]

/-- The loop over the faces of the intrinsic face constructor. -/
theorem foldl_rotLoop {R : Type} [Field R] (g : Geometry R) (rot : Complex R) (m : Nat)
    (angle0 : FacePtr → Complex R) (l : List FacePtr) :
    ∀ q : SurfaceVectorQuantity R,
      (l.foldl (fun q f => rotLoop g f rot m (angle0 f) q) q).vectorRoots
          = q.vectorRoots ++ l.flatMap (fun f => List.replicate m (g.barycenter f))
        ∧ (l.foldl (fun q f => rotLoop g f rot m (angle0 f) q) q).vectors
          = q.vectors ++ l.flatMap (fun f =>
              (List.range m).map (fun k => tangentVector g f (specAngle rot (angle0 f) k))) := by
  induction l with
  | nil => intro q; simp
  | cons f rest ih =>
    intro q
    obtain ⟨h1, h2⟩ := ih (rotLoop g f rot m (angle0 f) q)
    obtain ⟨h3, h4⟩ := rotLoop_spec g f rot m (angle0 f) q
    simp [h1, h2, h3, h4]

/-- The samples of the intrinsic face constructor: per face, `nSym` copies of the barycenter
and the tangent vectors of the successive angles. -/
theorem faceIntrinsic_new_samples {R : Type} [Field R] (S : StdLib R)
    (vectors_ : FacePtr → Complex R) (parent : Parent R) (nSym_ : Int) (vt : VectorType) :
    (SurfaceFaceIntrinsicVectorQuantity.new S vectors_ parent nSym_ vt).vectorRoots
        = parent.mesh.faces.flatMap
            (fun f => List.replicate nSym_.toNat (parent.geometry.barycenter f))
      ∧ (SurfaceFaceIntrinsicVectorQuantity.new S vectors_ parent nSym_ vt).vectors
        = parent.mesh.faces.flatMap (fun f =>
            (List.range nSym_.toNat).map (fun k => tangentVector parent.geometry f
              (specAngle (S.exp (S.IM_I.mulReal (2 * S.PI / (nSym_ : R))))
                (S.pow (parent.transfer.face vectors_ f) (1 / (nSym_ : R))) k))) := by
  obtain ⟨h1, h2⟩ := foldl_rotLoop parent.geometry
    (S.exp (S.IM_I.mulReal (2 * S.PI / (nSym_ : R)))) nSym_.toNat
    (fun f => S.pow (parent.transfer.face vectors_ f) (1 / (nSym_ : R))) parent.mesh.faces
    (SurfaceVectorQuantity.new MeshElement.FACE vt)
  simp only [SurfaceFaceIntrinsicVectorQuantity.new, finishConstructing_vectorRoots,
    finishConstructing_vectors, h1, h2]
  simp [SurfaceVectorQuantity.new]

/-! ## The one-form constructor: filling the system -/

/-- Up to three half-edges: the loop assigns row `i` from the `i`-th half-edge and leaves
the rows after the last half-edge unassigned. -/
theorem fillSystem_le_three {R : Type} [Field R] (mesh : SurfaceMesh) (g : Geometry R)
    (oneForm : EdgePtr → R) (f : FacePtr) (adj : List HalfedgePtr) (h : adj.length ≤ 3) :
    fillSystem mesh g oneForm f adj 0 (fun _ _ => none) (fun _ => none)
      = Except.ok
          (fun a b => (adj[a.val]?).map (fun _ => specMatrix g f adj a b),
            fun a => (adj[a.val]?).map (fun _ => specRhs mesh oneForm adj a)) := by
  rcases adj with _ | ⟨h0, _ | ⟨h1, _ | ⟨h2, _ | ⟨h3, rest⟩⟩⟩⟩
  · simp [fillSystem]
  · simp [fillSystem, Matrix32.set, Vector3d.set, bind, Except.bind]
    constructor
    · funext a b
      fin_cases a <;> fin_cases b <;> simp [specMatrix]
    · funext a
      fin_cases a <;> simp [specRhs]
  · simp [fillSystem, Matrix32.set, Vector3d.set, bind, Except.bind]
    constructor
    · funext a b
      fin_cases a <;> fin_cases b <;> simp [specMatrix]
    · funext a
      fin_cases a <;> simp [specRhs]
  · simp [fillSystem, Matrix32.set, Vector3d.set, bind, Except.bind]
    constructor
    · funext a b
      fin_cases a <;> fin_cases b <;> simp [specMatrix]
    · funext a
      fin_cases a <;> simp [specRhs]
  · simp at h

/-- A fourth half-edge writes row 3. -/
theorem fillSystem_four {R : Type} [Field R] (mesh : SurfaceMesh) (g : Geometry R)
    (oneForm : EdgePtr → R) (f : FacePtr) (adj : List HalfedgePtr) (h : 3 < adj.length) :
    fillSystem mesh g oneForm f adj 0 (fun _ _ => none) (fun _ => none)
      = Except.error (EigenError.rowOutOfRange 3) := by
  rcases adj with _ | ⟨h0, _ | ⟨h1, _ | ⟨h2, _ | ⟨h3, rest⟩⟩⟩⟩
  all_goals simp at h
  simp [fillSystem, Matrix32.set, Vector3d.set, bind, Except.bind]

theorem read_some {R : Type} (A : Fin 3 → Fin 2 → R) :
    Matrix32.read (fun a b => some (A a b)) = Except.ok A := by
  simp [Matrix32.read]

theorem vread_some {R : Type} (b : Fin 3 → R) :
    Vector3d.read (fun a => some (b a)) = Except.ok b := by
  simp [Vector3d.read]

theorem read_unassigned {R : Type} (m : Matrix32 R) (a : Fin 3) (b : Fin 2)
    (h : m a b = none) : m.read = Except.error EigenError.unassigned := by
  unfold Matrix32.read
  rw [dif_neg]
  intro hall
  have := hall a b
  rw [h] at this
  simp at this

/-- The loop body on a face with three half-edges. -/
theorem oneFormFace_three {R : Type} [Field R]
    (solve : (Fin 3 → Fin 2 → R) → (Fin 3 → R) → R × R) (parent : Parent R)
    (oneForm : EdgePtr → R) (st : SurfaceVectorQuantity R × (FacePtr → Complex R))
    (f : FacePtr) (h : (parent.mesh.adjacentHalfedges f).length = 3) :
    oneFormFace solve parent oneForm st f
      = Except.ok (oneFormFaceResult solve parent oneForm st f) := by
  have hM : (fun (a : Fin 3) (b : Fin 2) => ((parent.mesh.adjacentHalfedges f)[a.val]?).map
        (fun _ => specMatrix parent.geometry f (parent.mesh.adjacentHalfedges f) a b))
      = fun a b => some (specMatrix parent.geometry f (parent.mesh.adjacentHalfedges f) a b) := by
    funext a b
    have ha : a.val < (parent.mesh.adjacentHalfedges f).length := by omega
    simp [List.getElem?_eq_getElem ha]
  have hV : (fun (a : Fin 3) => ((parent.mesh.adjacentHalfedges f)[a.val]?).map
        (fun _ => specRhs parent.mesh oneForm (parent.mesh.adjacentHalfedges f) a))
      = fun a => some (specRhs parent.mesh oneForm (parent.mesh.adjacentHalfedges f) a) := by
    funext a
    have ha : a.val < (parent.mesh.adjacentHalfedges f).length := by omega
    simp [List.getElem?_eq_getElem ha]
  unfold oneFormFace
  rw [fillSystem_le_three _ _ _ _ _ (le_of_eq h)]
  simp only [bind, Except.bind, hM, hV, read_some, vread_some]
  rfl

/-- The loop body on a face with fewer than three half-edges: the solve reads a row that
was never assigned. -/
theorem oneFormFace_short {R : Type} [Field R]
    (solve : (Fin 3 → Fin 2 → R) → (Fin 3 → R) → R × R) (parent : Parent R)
    (oneForm : EdgePtr → R) (st : SurfaceVectorQuantity R × (FacePtr → Complex R))
    (f : FacePtr) (h : (parent.mesh.adjacentHalfedges f).length < 3) :
    oneFormFace solve parent oneForm st f = Except.error EigenError.unassigned := by
  unfold oneFormFace
  rw [fillSystem_le_three _ _ _ _ _ (le_of_lt h)]
  simp only [bind, Except.bind]
  rw [read_unassigned _ ⟨(parent.mesh.adjacentHalfedges f).length, h⟩ 0 (by simp)]

/-- The loop body on a face with more than three half-edges: row 3 is written. -/
theorem oneFormFace_long {R : Type} [Field R]
    (solve : (Fin 3 → Fin 2 → R) → (Fin 3 → R) → R × R) (parent : Parent R)
    (oneForm : EdgePtr → R) (st : SurfaceVectorQuantity R × (FacePtr → Complex R))
    (f : FacePtr) (h : 3 < (parent.mesh.adjacentHalfedges f).length) :
    oneFormFace solve parent oneForm st f
      = Except.error (EigenError.rowOutOfRange 3) := by
  unfold oneFormFace
  rw [fillSystem_four _ _ _ _ _ h]
  rfl

/-- The loop body finishes only on faces with three half-edges. -/
theorem oneFormFace_ok_length {R : Type} [Field R]
    (solve : (Fin 3 → Fin 2 → R) → (Fin 3 → R) → R × R) (parent : Parent R)
    (oneForm : EdgePtr → R) (st st1 : SurfaceVectorQuantity R × (FacePtr → Complex R))
    (f : FacePtr) (h : oneFormFace solve parent oneForm st f = Except.ok st1) :
    (parent.mesh.adjacentHalfedges f).length = 3 := by
  rcases Nat.lt_trichotomy (parent.mesh.adjacentHalfedges f).length 3 with h1 | h1 | h1
  · rw [oneFormFace_short solve parent oneForm st f h1] at h
    cases h
  · exact h1
  · rw [oneFormFace_long solve parent oneForm st f h1] at h
    cases h

/-- The loop over the faces finishes exactly when every face has three half-edges, and then
in the state the face-by-face results build up. -/
theorem foldlM_oneFormFace {R : Type} [Field R]
    (solve : (Fin 3 → Fin 2 → R) → (Fin 3 → R) → R × R) (parent : Parent R)
    (oneForm : EdgePtr → R) (l : List FacePtr) :
    ∀ st st1 : SurfaceVectorQuantity R × (FacePtr → Complex R),
      l.foldlM (oneFormFace solve parent oneForm) st = Except.ok st1
        ↔ (∀ f ∈ l, (parent.mesh.adjacentHalfedges f).length = 3)
          ∧ st1 = l.foldl (oneFormFaceResult solve parent oneForm) st := by
  induction l with
  | nil =>
    intro st st1
    simp [pure, Except.pure]
    exact eq_comm
  | cons f rest ih =>
    intro st st1
    rw [List.foldlM_cons]
    constructor
    · intro h
      cases hf : oneFormFace solve parent oneForm st f with
      | error e => rw [hf] at h; cases h
      | ok st2 =>
        have h3 := oneFormFace_ok_length solve parent oneForm st st2 f hf
        rw [oneFormFace_three solve parent oneForm st f h3] at hf
        cases hf
        rw [oneFormFace_three solve parent oneForm st f h3] at h
        have h4 := (ih _ st1).1 h
        refine ⟨?_, h4.2⟩
        intro g hg
        rcases List.mem_cons.1 hg with rfl | hg
        · exact h3
        · exact h4.1 g hg
    · rintro ⟨h1, h2⟩
      rw [oneFormFace_three solve parent oneForm st f (h1 f (List.mem_cons_self f rest))]
      exact (ih _ st1).2 ⟨fun g hg => h1 g (List.mem_cons_of_mem f hg), h2⟩

/-- The state after the face-by-face results of a list of faces. -/
theorem foldl_oneFormFaceResult {R : Type} [Field R]
    (solve : (Fin 3 → Fin 2 → R) → (Fin 3 → R) → R × R) (parent : Parent R)
    (oneForm : EdgePtr → R) (l : List FacePtr) :
    ∀ st : SurfaceVectorQuantity R × (FacePtr → Complex R),
      (l.foldl (oneFormFaceResult solve parent oneForm) st).1.vectorRoots
          = st.1.vectorRoots ++ l.map parent.geometry.barycenter
        ∧ (l.foldl (oneFormFaceResult solve parent oneForm) st).1.vectors
          = st.1.vectors ++ l.map (fun f => tangentVector parent.geometry f
              ⟨(faceSolution solve parent oneForm f).1, (faceSolution solve parent oneForm f).2⟩)
        ∧ (∀ f ∈ l, (l.foldl (oneFormFaceResult solve parent oneForm) st).2 f
            = ⟨(faceSolution solve parent oneForm f).1,
                (faceSolution solve parent oneForm f).2⟩)
        ∧ (∀ f, f ∉ l → (l.foldl (oneFormFaceResult solve parent oneForm) st).2 f = st.2 f) := by
  induction l with
  | nil => intro st; simp
  | cons g rest ih =>
    intro st
    obtain ⟨h1, h2, h3, h4⟩ := ih (oneFormFaceResult solve parent oneForm st g)
    simp only [List.foldl_cons]
    refine ⟨?_, ?_, ?_, ?_⟩
    · rw [h1]; simp [oneFormFaceResult]
    · rw [h2]; simp [oneFormFaceResult]
    · intro f hf
      by_cases hr : f ∈ rest
      · exact h3 f hr
      · rw [h4 f hr]
        rcases List.mem_cons.1 hf with rfl | hf
        · simp [oneFormFaceResult]
        · exact absurd hf hr
    · intro f hf
      rw [List.mem_cons, not_or] at hf
      rw [h4 f hf.2]
      simp [oneFormFaceResult, Function.update, hf.1]

/-- The one-form constructor finishes exactly when every face has three half-edges; its
samples are then one barycenter and one tangent vector per face, and `mappedVectorField`
holds the solution of each face. -/
theorem oneForm_new_ok {R : Type} [Field R]
    (solve : (Fin 3 → Fin 2 → R) → (Fin 3 → R) → R × R) (oneForm_ : EdgePtr → R)
    (parent : Parent R) (vt : VectorType) (q : SurfaceOneFormIntrinsicVectorQuantity R)
    (h : SurfaceOneFormIntrinsicVectorQuantity.new solve oneForm_ parent vt = Except.ok q) :
    (∀ f ∈ parent.mesh.faces, (parent.mesh.adjacentHalfedges f).length = 3)
      ∧ q.vectorRoots = parent.mesh.faces.map parent.geometry.barycenter
      ∧ q.vectors = parent.mesh.faces.map (fun f => tangentVector parent.geometry f
          ⟨(faceSolution solve parent (parent.transfer.edge oneForm_) f).1,
            (faceSolution solve parent (parent.transfer.edge oneForm_) f).2⟩)
      ∧ (∀ f ∈ parent.mesh.faces, q.mappedVectorField f
          = ⟨(faceSolution solve parent (parent.transfer.edge oneForm_) f).1,
              (faceSolution solve parent (parent.transfer.edge oneForm_) f).2⟩) := by
  unfold SurfaceOneFormIntrinsicVectorQuantity.new at h
  simp only [bind, Except.bind] at h
  cases hf : parent.mesh.faces.foldlM (oneFormFace solve parent (parent.transfer.edge oneForm_))
      (SurfaceVectorQuantity.new MeshElement.FACE vt, fun _ => (⟨0, 0⟩ : Complex R)) with
  | error e => rw [hf] at h; cases h
  | ok st =>
    rw [hf] at h
    cases h
    obtain ⟨h1, h2⟩ := (foldlM_oneFormFace solve parent _ _ _ _).1 hf
    obtain ⟨h3, h4, h5, _⟩ := foldl_oneFormFaceResult solve parent
      (parent.transfer.edge oneForm_) parent.mesh.faces
      (SurfaceVectorQuantity.new MeshElement.FACE vt, fun _ => (⟨0, 0⟩ : Complex R))
    subst h2
    refine ⟨h1, ?_, ?_, h5⟩
    · simp only [finishConstructing_vectorRoots, h3]
      simp [SurfaceVectorQuantity.new]
    · simp only [finishConstructing_vectors, h4]
      simp [SurfaceVectorQuantity.new]

/-- On a mesh whose faces all have three half-edges the one-form constructor finishes. -/
theorem oneForm_new_total {R : Type} [Field R]
    (solve : (Fin 3 → Fin 2 → R) → (Fin 3 → R) → R × R) (oneForm_ : EdgePtr → R)
    (parent : Parent R) (vt : VectorType)
    (h : ∀ f ∈ parent.mesh.faces, (parent.mesh.adjacentHalfedges f).length = 3) :
    ∃ q, SurfaceOneFormIntrinsicVectorQuantity.new solve oneForm_ parent vt = Except.ok q := by
  unfold SurfaceOneFormIntrinsicVectorQuantity.new
  simp only [bind, Except.bind]
  rw [(foldlM_oneFormFace solve parent _ _ _ _).2 ⟨h, rfl⟩]
  exact ⟨_, rfl⟩

/-! ## The one-form constructor as it runs: lemmas -/

/-- The unchecked loop over the faces pushes one barycenter and one vector per face, on
every mesh. -/
theorem foldl_oneFormFaceUnchecked {R : Type} [Field R] (E : EigenUnchecked R)
    (solve : (Fin 3 → Fin 2 → R) → (Fin 3 → R) → R × R) (parent : Parent R)
    (oneForm : EdgePtr → R) (l : List FacePtr) :
    ∀ st : SurfaceVectorQuantity R × (FacePtr → Complex R),
      (l.foldl (oneFormFaceUnchecked E solve parent oneForm) st).1.vectorRoots
          = st.1.vectorRoots ++ l.map parent.geometry.barycenter
        ∧ ((l.foldl (oneFormFaceUnchecked E solve parent oneForm) st).1.vectors).length
          = st.1.vectors.length + l.length := by
  induction l with
  | nil => intro st; simp
  | cons f rest ih =>
    intro st
    obtain ⟨h1, h2⟩ := ih (oneFormFaceUnchecked E solve parent oneForm st f)
    simp only [List.foldl_cons, h1, h2]
    constructor
    · simp [oneFormFaceUnchecked]
    · simp [oneFormFaceUnchecked]
      omega

/-- On three half-edges the unchecked loop overwrites every coefficient: whatever the
objects held, they end up holding the system of the specification. -/
theorem fillSystemUnchecked_three {R : Type} [Field R] (E : EigenUnchecked R)
    (mesh : SurfaceMesh) (g : Geometry R) (oneForm : EdgePtr → R) (f : FacePtr)
    (adj : List HalfedgePtr) (h : adj.length = 3) (s : EigenSystem R) :
    fillSystemUnchecked E mesh g oneForm f adj 0 s
      = (specMatrix g f adj, specRhs mesh oneForm adj) := by
  rcases adj with _ | ⟨h0, _ | ⟨h1, _ | ⟨h2, _ | ⟨h3, rest⟩⟩⟩⟩
  all_goals simp at h
  simp only [fillSystemUnchecked, EigenUnchecked.setMat, EigenUnchecked.setRhs]
  simp only [Nat.zero_add, Nat.reduceAdd, Nat.lt_add_one, Nat.reduceLT, dite_true,
    show (0 : Nat) < 3 from by decide]
  refine Prod.ext ?_ ?_
  · funext a b
    fin_cases a <;> fin_cases b <;> simp [specMatrix]
  · funext a
    fin_cases a <;> simp [specRhs]

/-- On a face with three half-edges the unchecked loop body does what the instrumented one
does. -/
theorem oneFormFaceUnchecked_three {R : Type} [Field R] (E : EigenUnchecked R)
    (solve : (Fin 3 → Fin 2 → R) → (Fin 3 → R) → R × R) (parent : Parent R)
    (oneForm : EdgePtr → R) (st : SurfaceVectorQuantity R × (FacePtr → Complex R))
    (f : FacePtr) (h : (parent.mesh.adjacentHalfedges f).length = 3) :
    oneFormFaceUnchecked E solve parent oneForm st f
      = oneFormFaceResult solve parent oneForm st f := by
  unfold oneFormFaceUnchecked
  simp only [fillSystemUnchecked_three E _ _ _ _ _ h]
  rfl

theorem foldl_oneFormFaceUnchecked_three {R : Type} [Field R] (E : EigenUnchecked R)
    (solve : (Fin 3 → Fin 2 → R) → (Fin 3 → R) → R × R) (parent : Parent R)
    (oneForm : EdgePtr → R) (l : List FacePtr)
    (h : ∀ f ∈ l, (parent.mesh.adjacentHalfedges f).length = 3) :
    ∀ st : SurfaceVectorQuantity R × (FacePtr → Complex R),
      l.foldl (oneFormFaceUnchecked E solve parent oneForm) st
        = l.foldl (oneFormFaceResult solve parent oneForm) st := by
  induction l with
  | nil => intro st; rfl
  | cons f rest ih =>
    intro st
    simp only [List.foldl_cons]
    rw [oneFormFaceUnchecked_three E solve parent oneForm st f (h f (List.mem_cons_self f rest))]
    exact ih (fun g hg => h g (List.mem_cons_of_mem f hg)) _

/-- Whenever the instrumented constructor finishes, the unchecked constructor returns the
same quantity, whatever the Eigen objects do outside their contract. -/
theorem newUnchecked_eq_of_ok {R : Type} [Field R] (E : EigenUnchecked R)
    (solve : (Fin 3 → Fin 2 → R) → (Fin 3 → R) → R × R) (oneForm_ : EdgePtr → R)
    (parent : Parent R) (vt : VectorType) (q : SurfaceOneFormIntrinsicVectorQuantity R)
    (h : SurfaceOneFormIntrinsicVectorQuantity.new solve oneForm_ parent vt = Except.ok q) :
    SurfaceOneFormIntrinsicVectorQuantity.newUnchecked E solve oneForm_ parent vt = q := by
  have hT := (oneForm_new_ok solve oneForm_ parent vt q h).1
  unfold SurfaceOneFormIntrinsicVectorQuantity.new at h
  simp only [bind, Except.bind] at h
  rw [(foldlM_oneFormFace solve parent _ _ _ _).2 ⟨hT, rfl⟩] at h
  cases h
  unfold SurfaceOneFormIntrinsicVectorQuantity.newUnchecked
  simp only [foldl_oneFormFaceUnchecked_three E solve parent _ _ hT]

/-! ## C1 -/

/-- C1: after each of the four constructors, `vectors` and `vectorRoots` have the same
length, on every mesh and for every input. The one-form constructor is taken as it runs,
without checks on the Eigen objects: it finishes on every mesh, also on faces with fewer or
more than three half-edges, whatever the objects hold when declared and whatever a store
outside the three rows does to them. -/
theorem constructors_equal_lengths {R : Type} [Field R] (parent : Parent R)
    (vt : VectorType) :
    (∀ vectors_ : VertexPtr → Vector3 R,
        (SurfaceVertexVectorQuantity.new vectors_ parent vt).vectors.length
          = (SurfaceVertexVectorQuantity.new vectors_ parent vt).vectorRoots.length)
      ∧ (∀ vectors_ : FacePtr → Vector3 R,
        (SurfaceFaceVectorQuantity.new vectors_ parent vt).vectors.length
          = (SurfaceFaceVectorQuantity.new vectors_ parent vt).vectorRoots.length)
      ∧ (∀ (S : StdLib R) (vectors_ : FacePtr → Complex R) (nSym_ : Int),
        (SurfaceFaceIntrinsicVectorQuantity.new S vectors_ parent nSym_ vt).vectors.length
          = (SurfaceFaceIntrinsicVectorQuantity.new S vectors_ parent nSym_ vt).vectorRoots.length)
      ∧ (∀ (E : EigenUnchecked R) (solve : (Fin 3 → Fin 2 → R) → (Fin 3 → R) → R × R)
          (oneForm_ : EdgePtr → R),
        (SurfaceOneFormIntrinsicVectorQuantity.newUnchecked E solve oneForm_ parent
            vt).vectors.length
          = (SurfaceOneFormIntrinsicVectorQuantity.newUnchecked E solve oneForm_ parent
            vt).vectorRoots.length) := by
  refine ⟨?_, ?_, ?_, ?_⟩
  · intro vectors_
    obtain ⟨h1, h2⟩ := foldl_push parent.geometry.position (parent.transfer.vertex vectors_)
      parent.mesh.vertices (SurfaceVectorQuantity.new MeshElement.VERTEX vt)
    simp only [SurfaceVertexVectorQuantity.new, finishConstructing_vectors,
      finishConstructing_vectorRoots, h1, h2]
    simp [SurfaceVectorQuantity.new]
  · intro vectors_
    obtain ⟨h1, h2⟩ := foldl_push parent.geometry.barycenter (parent.transfer.face vectors_)
      parent.mesh.faces (SurfaceVectorQuantity.new MeshElement.FACE vt)
    simp only [SurfaceFaceVectorQuantity.new, finishConstructing_vectors,
      finishConstructing_vectorRoots, h1, h2]
    simp [SurfaceVectorQuantity.new]
  · intro S vectors_ nSym_
    obtain ⟨h1, h2⟩ := faceIntrinsic_new_samples S vectors_ parent nSym_ vt
    rw [h1, h2]
    simp [List.length_flatMap, Function.comp_def]
  · intro E solve oneForm_
    obtain ⟨h1, h2⟩ := foldl_oneFormFaceUnchecked E solve parent
      (parent.transfer.edge oneForm_) parent.mesh.faces
      (SurfaceVectorQuantity.new MeshElement.FACE vt, fun _ => (⟨0, 0⟩ : Complex R))
    simp only [SurfaceOneFormIntrinsicVectorQuantity.newUnchecked, finishConstructing_vectors,
      finishConstructing_vectorRoots, h1, h2]
    simp [SurfaceVectorQuantity.new]

/-- C1, witness: the one-form constructor on a mesh with a face of two half-edges, a
triangle and a face of four half-edges; it finishes with three roots and three vectors. -/
theorem constructors_equal_lengths_witness :
    (SurfaceOneFormIntrinsicVectorQuantity.newUnchecked zeroedEigen colPivHouseholderQrSolve
          sampleOneForm (parentOf mixedMesh : Parent ℚ) VectorType.STANDARD).vectors.length
        = (SurfaceOneFormIntrinsicVectorQuantity.newUnchecked zeroedEigen
            colPivHouseholderQrSolve sampleOneForm (parentOf mixedMesh : Parent ℚ)
            VectorType.STANDARD).vectorRoots.length
      ∧ (SurfaceOneFormIntrinsicVectorQuantity.newUnchecked zeroedEigen
            colPivHouseholderQrSolve sampleOneForm (parentOf mixedMesh : Parent ℚ)
            VectorType.STANDARD).vectorRoots.length = 3 :=
  ⟨(constructors_equal_lengths (parentOf mixedMesh : Parent ℚ) VectorType.STANDARD).2.2.2
      zeroedEigen colPivHouseholderQrSolve sampleOneForm, rfl⟩

/-! ## C10 -/

/-- C10: in the loop that fills `vectorMat` and `rhsVec` for a face, with exactly three
adjacent half-edges every write stays in rows 0, 1, 2 (the loop finishes without an
out-of-range access), every coefficient is assigned, and the solver reads the system of the
specification. With more than three half-edges row 3 is written; with fewer than three the
row after the last half-edge is still unassigned when the solver runs. -/
theorem fill_rows {R : Type} [Field R] (parent : Parent R) (oneForm : EdgePtr → R)
    (f : FacePtr) :
    ((parent.mesh.adjacentHalfedges f).length = 3 →
        ∃ m r, fillSystem parent.mesh parent.geometry oneForm f
              (parent.mesh.adjacentHalfedges f) 0 (fun _ _ => none) (fun _ => none)
            = Except.ok (m, r)
          ∧ (∀ a b, (m a b).isSome = true) ∧ (∀ a, (r a).isSome = true)
          ∧ m.read = Except.ok
              (specMatrix parent.geometry f (parent.mesh.adjacentHalfedges f))
          ∧ r.read = Except.ok (specRhs parent.mesh oneForm (parent.mesh.adjacentHalfedges f)))
      ∧ (3 < (parent.mesh.adjacentHalfedges f).length →
          fillSystem parent.mesh parent.geometry oneForm f
              (parent.mesh.adjacentHalfedges f) 0 (fun _ _ => none) (fun _ => none)
            = Except.error (EigenError.rowOutOfRange 3)
          ∧ ∀ solve st, oneFormFace solve parent oneForm st f
              = Except.error (EigenError.rowOutOfRange 3))
      ∧ (∀ h : (parent.mesh.adjacentHalfedges f).length < 3,
          ∃ m r, fillSystem parent.mesh parent.geometry oneForm f
                (parent.mesh.adjacentHalfedges f) 0 (fun _ _ => none) (fun _ => none)
              = Except.ok (m, r)
            ∧ m ⟨(parent.mesh.adjacentHalfedges f).length, h⟩ 0 = none
            ∧ m ⟨(parent.mesh.adjacentHalfedges f).length, h⟩ 1 = none
            ∧ r ⟨(parent.mesh.adjacentHalfedges f).length, h⟩ = none
            ∧ ∀ solve st, oneFormFace solve parent oneForm st f
                = Except.error EigenError.unassigned) := by
  refine ⟨?_, ?_, ?_⟩
  · intro h
    have hM : (fun (a : Fin 3) (b : Fin 2) => ((parent.mesh.adjacentHalfedges f)[a.val]?).map
          (fun _ => specMatrix parent.geometry f (parent.mesh.adjacentHalfedges f) a b))
        = fun a b => some (specMatrix parent.geometry f (parent.mesh.adjacentHalfedges f) a b) := by
      funext a b
      have ha : a.val < (parent.mesh.adjacentHalfedges f).length := by omega
      simp [List.getElem?_eq_getElem ha]
    have hV : (fun (a : Fin 3) => ((parent.mesh.adjacentHalfedges f)[a.val]?).map
          (fun _ => specRhs parent.mesh oneForm (parent.mesh.adjacentHalfedges f) a))
        = fun a => some (specRhs parent.mesh oneForm (parent.mesh.adjacentHalfedges f) a) := by
      funext a
      have ha : a.val < (parent.mesh.adjacentHalfedges f).length := by omega
      simp [List.getElem?_eq_getElem ha]
    refine ⟨_, _, fillSystem_le_three _ _ _ _ _ (le_of_eq h), ?_, ?_, ?_, ?_⟩
    · intro a b
      have := congrFun (congrFun hM a) b
      simp only at this
      rw [this]
      rfl
    · intro a
      have := congrFun hV a
      simp only at this
      rw [this]
      rfl
    · rw [hM, read_some]
    · rw [hV, vread_some]
  · intro h
    exact ⟨fillSystem_four _ _ _ _ _ h, fun solve st => oneFormFace_long solve parent oneForm st f h⟩
  · intro h
    refine ⟨_, _, fillSystem_le_three _ _ _ _ _ (le_of_lt h), ?_, ?_, ?_, ?_⟩
    · simp
    · simp
    · simp
    · intro solve st
      exact oneFormFace_short solve parent oneForm st f h

/-- C10, witness: a triangle, a face with four half-edges and a face with two. -/
theorem fill_rows_witness :
    (∃ m r, fillSystem triangleMesh (triangleGeometry : Geometry ℚ) sampleOneForm 0
          [0, 1, 2] 0 (fun _ _ => none) (fun _ => none) = Except.ok (m, r)
        ∧ (∀ a b, (m a b).isSome = true) ∧ (∀ a, (r a).isSome = true)
        ∧ m.read = Except.ok (specMatrix (triangleGeometry : Geometry ℚ) 0 [0, 1, 2])
        ∧ r.read = Except.ok (specRhs triangleMesh (sampleOneForm : EdgePtr → ℚ) [0, 1, 2]))
      ∧ fillSystem quadMesh (triangleGeometry : Geometry ℚ) sampleOneForm 0
          [0, 1, 2, 3] 0 (fun _ _ => none) (fun _ => none)
        = Except.error (EigenError.rowOutOfRange 3)
      ∧ (∃ m r, fillSystem digonMesh (triangleGeometry : Geometry ℚ) sampleOneForm 0
          [0, 1] 0 (fun _ _ => none) (fun _ => none) = Except.ok (m, r)
        ∧ m 2 0 = none ∧ m 2 1 = none ∧ r 2 = none) :=
  ⟨(fill_rows (parentOf triangleMesh : Parent ℚ) sampleOneForm 0).1 rfl,
    ((fill_rows (parentOf quadMesh : Parent ℚ) sampleOneForm 0).2.1 (by decide)).1,
    by
      obtain ⟨m, r, h1, h2, h3, h4, _⟩ :=
        (fill_rows (parentOf digonMesh : Parent ℚ) sampleOneForm 0).2.2 (by decide)
      exact ⟨m, r, h1, h2, h3, h4⟩⟩

/-! ## The least-squares solve -/

/-- A pair that satisfies the normal equations minimises the sum of squared residuals. -/
theorem residual_min_of_normal {R : Type} [LinearOrderedField R]
    (A : Fin 3 → Fin 2 → R) (b : Fin 3 → R) (x : R × R)
    (h0 : (A 0 0 * A 0 0 + A 1 0 * A 1 0 + A 2 0 * A 2 0) * x.1
        + (A 0 0 * A 0 1 + A 1 0 * A 1 1 + A 2 0 * A 2 1) * x.2
      = A 0 0 * b 0 + A 1 0 * b 1 + A 2 0 * b 2)
    (h1 : (A 0 0 * A 0 1 + A 1 0 * A 1 1 + A 2 0 * A 2 1) * x.1
        + (A 0 1 * A 0 1 + A 1 1 * A 1 1 + A 2 1 * A 2 1) * x.2
      = A 0 1 * b 0 + A 1 1 * b 1 + A 2 1 * b 2)
    (y : R × R) : residual A b x ≤ residual A b y := by
  unfold residual
  have key : (A 0 0 * y.1 + A 0 1 * y.2 - b 0) ^ 2 + (A 1 0 * y.1 + A 1 1 * y.2 - b 1) ^ 2
        + (A 2 0 * y.1 + A 2 1 * y.2 - b 2) ^ 2
      = (A 0 0 * x.1 + A 0 1 * x.2 - b 0) ^ 2 + (A 1 0 * x.1 + A 1 1 * x.2 - b 1) ^ 2
        + (A 2 0 * x.1 + A 2 1 * x.2 - b 2) ^ 2
        + ((A 0 0 * (y.1 - x.1) + A 0 1 * (y.2 - x.2)) ^ 2
          + (A 1 0 * (y.1 - x.1) + A 1 1 * (y.2 - x.2)) ^ 2
          + (A 2 0 * (y.1 - x.1) + A 2 1 * (y.2 - x.2)) ^ 2)
        + 2 * ((y.1 - x.1)
              * ((A 0 0 * A 0 0 + A 1 0 * A 1 0 + A 2 0 * A 2 0) * x.1
                + (A 0 0 * A 0 1 + A 1 0 * A 1 1 + A 2 0 * A 2 1) * x.2
                - (A 0 0 * b 0 + A 1 0 * b 1 + A 2 0 * b 2))
            + (y.2 - x.2)
              * ((A 0 0 * A 0 1 + A 1 0 * A 1 1 + A 2 0 * A 2 1) * x.1
                + (A 0 1 * A 0 1 + A 1 1 * A 1 1 + A 2 1 * A 2 1) * x.2
                - (A 0 1 * b 0 + A 1 1 * b 1 + A 2 1 * b 2))) := by
    ring
  rw [key, h0, h1]
  have hs : 0 ≤ (A 0 0 * (y.1 - x.1) + A 0 1 * (y.2 - x.2)) ^ 2
          + (A 1 0 * (y.1 - x.1) + A 1 1 * (y.2 - x.2)) ^ 2
          + (A 2 0 * (y.1 - x.1) + A 2 1 * (y.2 - x.2)) ^ 2 := by positivity
  linarith

/-- If the Gram determinant of two columns vanishes, the first column scaled by the inner
product is the second column scaled by the squared norm of the first. -/
theorem gram_zero_parallel {R : Type} [LinearOrderedField R] (a0 a1 a2 c0 c1 c2 : R)
    (h : (a0 * a0 + a1 * a1 + a2 * a2) * (c0 * c0 + c1 * c1 + c2 * c2)
        - (a0 * c0 + a1 * c1 + a2 * c2) * (a0 * c0 + a1 * c1 + a2 * c2) = 0) :
    (a0 * a0 + a1 * a1 + a2 * a2) * c0 = (a0 * c0 + a1 * c1 + a2 * c2) * a0
      ∧ (a0 * a0 + a1 * a1 + a2 * a2) * c1 = (a0 * c0 + a1 * c1 + a2 * c2) * a1
      ∧ (a0 * a0 + a1 * a1 + a2 * a2) * c2 = (a0 * c0 + a1 * c1 + a2 * c2) * a2 := by
  have hL : (a0 * c1 - a1 * c0) ^ 2 + (a0 * c2 - a2 * c0) ^ 2 + (a1 * c2 - a2 * c1) ^ 2 = 0 := by
    rw [← h]; ring
  have e1 : a0 * c1 - a1 * c0 = 0 := by
    have : (a0 * c1 - a1 * c0) ^ 2 = 0 :=
      le_antisymm (by nlinarith [sq_nonneg (a0 * c2 - a2 * c0), sq_nonneg (a1 * c2 - a2 * c1)])
        (sq_nonneg _)
    exact pow_eq_zero_iff (two_ne_zero) |>.1 this
  have e2 : a0 * c2 - a2 * c0 = 0 := by
    have : (a0 * c2 - a2 * c0) ^ 2 = 0 :=
      le_antisymm (by nlinarith [sq_nonneg (a0 * c1 - a1 * c0), sq_nonneg (a1 * c2 - a2 * c1)])
        (sq_nonneg _)
    exact pow_eq_zero_iff (two_ne_zero) |>.1 this
  have e3 : a1 * c2 - a2 * c1 = 0 := by
    have : (a1 * c2 - a2 * c1) ^ 2 = 0 :=
      le_antisymm (by nlinarith [sq_nonneg (a0 * c1 - a1 * c0), sq_nonneg (a0 * c2 - a2 * c0)])
        (sq_nonneg _)
    exact pow_eq_zero_iff (two_ne_zero) |>.1 this
  refine ⟨?_, ?_, ?_⟩
  · linear_combination (-a1) * e1 + (-a2) * e2
  · linear_combination a0 * e1 + (-a2) * e3
  · linear_combination a0 * e2 + a1 * e3

theorem sum_sq_zero {R : Type} [LinearOrderedField R] (a0 a1 a2 : R)
    (h : a0 * a0 + a1 * a1 + a2 * a2 = 0) : a0 = 0 ∧ a1 = 0 ∧ a2 = 0 := by
  have h0 := mul_self_nonneg a0
  have h1 := mul_self_nonneg a1
  have h2 := mul_self_nonneg a2
  refine ⟨?_, ?_, ?_⟩
  · exact mul_self_eq_zero.1 (le_antisymm (by linarith) h0)
  · exact mul_self_eq_zero.1 (le_antisymm (by linarith) h1)
  · exact mul_self_eq_zero.1 (le_antisymm (by linarith) h2)

/-- The modelled solve returns a least-squares solution, at every rank. -/
theorem colPivHouseholderQrSolve_isLeastSquares {R : Type} [LinearOrderedField R] :
    IsLeastSquares (colPivHouseholderQrSolve : (Fin 3 → Fin 2 → R) → (Fin 3 → R) → R × R) := by
  intro A b y
  apply residual_min_of_normal
  · unfold colPivHouseholderQrSolve
    simp only
    split_ifs with hd hle hn0
    · obtain ⟨z0, z1, z2⟩ := sum_sq_zero _ _ _ hn0
      simp [z0, z1, z2]
    · field_simp
    · have hn1 : A 0 1 * A 0 1 + A 1 1 * A 1 1 + A 2 1 * A 2 1 ≠ 0 := by
        have := mul_self_nonneg (A 0 0)
        have := mul_self_nonneg (A 1 0)
        have := mul_self_nonneg (A 2 0)
        intro h
        rw [h] at hle
        exact hle (by linarith)
      have hg : (A 0 1 * A 0 1 + A 1 1 * A 1 1 + A 2 1 * A 2 1)
            * (A 0 0 * A 0 0 + A 1 0 * A 1 0 + A 2 0 * A 2 0)
          - (A 0 1 * A 0 0 + A 1 1 * A 1 0 + A 2 1 * A 2 0)
            * (A 0 1 * A 0 0 + A 1 1 * A 1 0 + A 2 1 * A 2 0) = 0 := by
        rw [← hd]; ring
      obtain ⟨p0, p1, p2⟩ := gram_zero_parallel _ _ _ _ _ _ hg
      field_simp
      linear_combination (-(b 0)) * p0 + (-(b 1)) * p1 + (-(b 2)) * p2
    · field_simp
      ring
  · unfold colPivHouseholderQrSolve
    simp only
    split_ifs with hd hle hn0
    · obtain ⟨z0, z1, z2⟩ := sum_sq_zero _ _ _ hn0
      have hn1 : A 0 1 * A 0 1 + A 1 1 * A 1 1 + A 2 1 * A 2 1 = 0 := by
        have := mul_self_nonneg (A 0 1)
        have := mul_self_nonneg (A 1 1)
        have := mul_self_nonneg (A 2 1)
        rw [hn0] at hle
        linarith
      obtain ⟨w0, w1, w2⟩ := sum_sq_zero _ _ _ hn1
      simp [w0, w1, w2]
    · obtain ⟨p0, p1, p2⟩ := gram_zero_parallel _ _ _ _ _ _ hd
      field_simp
      linear_combination (-(b 0)) * p0 + (-(b 1)) * p1 + (-(b 2)) * p2
    · have hn1 : A 0 1 * A 0 1 + A 1 1 * A 1 1 + A 2 1 * A 2 1 ≠ 0 := by
        have := mul_self_nonneg (A 0 0)
        have := mul_self_nonneg (A 1 0)
        have := mul_self_nonneg (A 2 0)
        intro h
        rw [h] at hle
        exact hle (by linarith)
      field_simp
    · field_simp
      ring

/-! ## C9 -/

/-- The entries of the finished one-form quantity that belong to the `j`-th face. -/
theorem oneForm_new_at {R : Type} [Field R]
    (solve : (Fin 3 → Fin 2 → R) → (Fin 3 → R) → R × R) (oneForm_ : EdgePtr → R)
    (parent : Parent R) (vt : VectorType) (q : SurfaceOneFormIntrinsicVectorQuantity R)
    (h : SurfaceOneFormIntrinsicVectorQuantity.new solve oneForm_ parent vt = Except.ok q)
    (j : Nat) (f : FacePtr) (hf : parent.mesh.faces[j]? = some f) :
    q.mappedVectorField f
        = ⟨(faceSolution solve parent (parent.transfer.edge oneForm_) f).1,
            (faceSolution solve parent (parent.transfer.edge oneForm_) f).2⟩
      ∧ q.vectors[j]?
        = some (((parent.geometry.faceBases f).1.mul
              (faceSolution solve parent (parent.transfer.edge oneForm_) f).1).add
            ((parent.geometry.faceBases f).2.mul
              (faceSolution solve parent (parent.transfer.edge oneForm_) f).2))
      ∧ q.vectorRoots[j]? = some (parent.geometry.barycenter f) := by
  obtain ⟨_, h1, h2, h3⟩ := oneForm_new_ok solve oneForm_ parent vt q h
  refine ⟨h3 f (List.getElem?_mem hf), ?_, ?_⟩
  · rw [h2, List.getElem?_map, hf]
    rfl
  · rw [h1, List.getElem?_map, hf]
    rfl

/-- C9: for every face `f` with three half-edges the one-form constructor reconstructs a
pair `(x0, x1)` that minimises the sum of squared residuals of the 3x2 system whose row `i`
is `(dot(halfedgeVector[he_i], b0), dot(halfedgeVector[he_i], b1))` and whose right-hand
side `i` is the one-form on the edge of `he_i`, negated when `he_i` is not the canonical
half-edge. The loop body finishes on `f`, stores `x0 + i x1` in `mappedVectorField[f]` and
pushes the barycenter and `x0 b0 + x1 b1`; these are the entries of the finished quantity
at the position of `f`, and the constructor finishes when all faces have three
half-edges. -/
theorem oneForm_face_least_squares {R : Type} [LinearOrderedField R]
    (oneForm_ : EdgePtr → R) (parent : Parent R) (vt : VectorType) (f : FacePtr)
    (h3 : (parent.mesh.adjacentHalfedges f).length = 3) :
    ∃ x0 x1 : R,
      (∀ y : R × R,
          residual (specMatrix parent.geometry f (parent.mesh.adjacentHalfedges f))
              (specRhs parent.mesh (parent.transfer.edge oneForm_)
                (parent.mesh.adjacentHalfedges f)) (x0, x1)
            ≤ residual (specMatrix parent.geometry f (parent.mesh.adjacentHalfedges f))
              (specRhs parent.mesh (parent.transfer.edge oneForm_)
                (parent.mesh.adjacentHalfedges f)) y)
        ∧ (∀ st : SurfaceVectorQuantity R × (FacePtr → Complex R),
            oneFormFace colPivHouseholderQrSolve parent (parent.transfer.edge oneForm_) st f
              = Except.ok
                  ((st.1.pushRoot (parent.geometry.barycenter f)).pushVector
                      (((parent.geometry.faceBases f).1.mul x0).add
                        ((parent.geometry.faceBases f).2.mul x1)),
                    Function.update st.2 f ⟨x0, x1⟩))
        ∧ (∀ (q : SurfaceOneFormIntrinsicVectorQuantity R) (j : Nat),
            SurfaceOneFormIntrinsicVectorQuantity.new colPivHouseholderQrSolve oneForm_
                parent vt = Except.ok q →
            parent.mesh.faces[j]? = some f →
            q.mappedVectorField f = ⟨x0, x1⟩
              ∧ q.vectors[j]?
                = some (((parent.geometry.faceBases f).1.mul x0).add
                    ((parent.geometry.faceBases f).2.mul x1))
              ∧ q.vectorRoots[j]? = some (parent.geometry.barycenter f))
        ∧ ((∀ g ∈ parent.mesh.faces, (parent.mesh.adjacentHalfedges g).length = 3) →
            ∃ q, SurfaceOneFormIntrinsicVectorQuantity.new colPivHouseholderQrSolve oneForm_
              parent vt = Except.ok q) := by
  refine ⟨(faceSolution colPivHouseholderQrSolve parent (parent.transfer.edge oneForm_) f).1,
    (faceSolution colPivHouseholderQrSolve parent (parent.transfer.edge oneForm_) f).2,
    ?_, ?_, ?_, ?_⟩
  · intro y
    exact colPivHouseholderQrSolve_isLeastSquares _ _ y
  · intro st
    rw [oneFormFace_three colPivHouseholderQrSolve parent _ st f h3]
    rfl
  · intro q j hq hf
    exact oneForm_new_at colPivHouseholderQrSolve oneForm_ parent vt q hq j f hf
  · exact oneForm_new_total colPivHouseholderQrSolve oneForm_ parent vt

/-- The equilateral scenario: one-form 1, 0, 0 on the three edges. The system is
inconsistent and its least-squares solution is (2/3, 0). -/
theorem equilateral_solution {R : Type} [LinearOrderedField R] (s : R) (hs : s * s = 3 / 4) :
    faceSolution colPivHouseholderQrSolve (equilateralParent s) unitOneForm 0 = (2 / 3, 0) := by
  have h1 : ¬ ((1 : R) + -1 / 2 * (-1 / 2) + -1 / 2 * (-1 / 2) = 0 ∨ s = 0) := by
    rintro (h | h)
    · norm_num at h
    · rw [h] at hs
      norm_num at hs
  simp [faceSolution, colPivHouseholderQrSolve, specMatrix, specRhs, equilateralParent,
    canonicalTriangleMesh, unitOneForm, dot, identityTransfer]
  rw [if_neg h1, hs]
  norm_num

/-- C9, witness: the equilateral triangle with one-form 1, 0, 0; the system is inconsistent
and the pair the constructor reconstructs, its least-squares solution, is (2/3, 0), along
the first edge. -/
theorem oneForm_face_least_squares_witness :
    ((equilateralParent (Real.sqrt 3 / 2)).mesh.adjacentHalfedges 0).length = 3
      ∧ (∃ x0 x1 : ℝ,
          (∀ y : ℝ × ℝ,
              residual (specMatrix (equilateralParent (Real.sqrt 3 / 2)).geometry 0 [0, 1, 2])
                  (specRhs canonicalTriangleMesh unitOneForm [0, 1, 2]) (x0, x1)
                ≤ residual
                  (specMatrix (equilateralParent (Real.sqrt 3 / 2)).geometry 0 [0, 1, 2])
                  (specRhs canonicalTriangleMesh unitOneForm [0, 1, 2]) y)
            ∧ (∀ st : SurfaceVectorQuantity ℝ × (FacePtr → Complex ℝ),
                oneFormFace colPivHouseholderQrSolve (equilateralParent (Real.sqrt 3 / 2))
                    unitOneForm st 0
                  = Except.ok
                      ((st.1.pushRoot ⟨1 / 2, Real.sqrt 3 / 2 / 3, 0⟩).pushVector
                          (((Vector3.mk 1 0 0).mul x0).add ((Vector3.mk 0 1 0).mul x1)),
                        Function.update st.2 0 ⟨x0, x1⟩))
            ∧ (∀ (q : SurfaceOneFormIntrinsicVectorQuantity ℝ) (j : Nat),
                SurfaceOneFormIntrinsicVectorQuantity.new colPivHouseholderQrSolve unitOneForm
                    (equilateralParent (Real.sqrt 3 / 2)) VectorType.STANDARD = Except.ok q →
                (equilateralParent (Real.sqrt 3 / 2)).mesh.faces[j]? = some 0 →
                q.mappedVectorField 0 = ⟨x0, x1⟩
                  ∧ q.vectors[j]?
                    = some (((Vector3.mk 1 0 0).mul x0).add ((Vector3.mk 0 1 0).mul x1))
                  ∧ q.vectorRoots[j]? = some ⟨1 / 2, Real.sqrt 3 / 2 / 3, 0⟩)
            ∧ ((∀ g ∈ (equilateralParent (Real.sqrt 3 / 2)).mesh.faces,
                  ((equilateralParent (Real.sqrt 3 / 2)).mesh.adjacentHalfedges g).length = 3) →
                ∃ q, SurfaceOneFormIntrinsicVectorQuantity.new colPivHouseholderQrSolve
                  unitOneForm (equilateralParent (Real.sqrt 3 / 2)) VectorType.STANDARD
                    = Except.ok q))
      ∧ faceSolution colPivHouseholderQrSolve (equilateralParent (Real.sqrt 3 / 2))
          unitOneForm 0 = (2 / 3, 0) :=
  ⟨rfl,
    oneForm_face_least_squares unitOneForm (equilateralParent (Real.sqrt 3 / 2))
      VectorType.STANDARD 0 rfl,
    equilateral_solution (Real.sqrt 3 / 2) (by
      rw [div_mul_div_comm, Real.mul_self_sqrt (by norm_num)]
      norm_num)⟩

/-! ## C4 -/

theorem dot_span {R : Type} [Field R] (b0 b1 v : Vector3 R) (s t : R) :
    dot ((b0.mul s).add (b1.mul t)) v = s * dot b0 v + t * dot b1 v := by
  simp only [dot, Vector3.add, Vector3.mul]
  ring

theorem dot_comm {R : Type} [Field R] (u v : Vector3 R) : dot u v = dot v u := by
  simp only [dot]
  ring

theorem cross_span {R : Type} [Field R] (b0 b1 : Vector3 R) (s t s' t' : R) :
    cross ((b0.mul s).add (b1.mul t)) ((b0.mul s').add (b1.mul t'))
      = (cross b0 b1).mul (s * t' - t * s') := by
  simp only [cross, Vector3.add, Vector3.mul, Vector3.mk.injEq]
  refine ⟨?_, ?_, ?_⟩ <;> ring

/-- In an orthonormal basis the coordinates of a vector of the span are its projections. -/
theorem span_coords {R : Type} [Field R] (b0 b1 v : Vector3 R) (hON : Orthonormal b0 b1)
    (hv : InSpan b0 b1 v) : v = (b0.mul (dot v b0)).add (b1.mul (dot v b1)) := by
  obtain ⟨s, t, rfl⟩ := hv
  obtain ⟨h00, h11, h01⟩ := hON
  have h10 : dot b1 b0 = 0 := by rw [dot_comm]; exact h01
  rw [dot_span, dot_span, h00, h11, h01, h10]
  simp

theorem two_rows_unique {R : Type} [Field R] (s t s' t' u v : R)
    (hm : s * t' - t * s' ≠ 0) (e : s * u + t * v = 0) (e' : s' * u + t' * v = 0) :
    u = 0 ∧ v = 0 := by
  constructor
  · have : (s * t' - t * s') * u = 0 := by linear_combination t' * e - t * e'
    exact (mul_eq_zero.1 this).resolve_left hm
  · have : (s * t' - t * s') * v = 0 := by linear_combination s * e' - s' * e
    exact (mul_eq_zero.1 this).resolve_left hm

theorem residual_zero_rows {R : Type} [LinearOrderedField R] (A : Fin 3 → Fin 2 → R)
    (b : Fin 3 → R) (x : R × R) (h : residual A b x ≤ 0) :
    ∀ i : Fin 3, A i 0 * x.1 + A i 1 * x.2 - b i = 0 := by
  unfold residual at h
  have h0 := sq_nonneg (A 0 0 * x.1 + A 0 1 * x.2 - b 0)
  have h1 := sq_nonneg (A 1 0 * x.1 + A 1 1 * x.2 - b 1)
  have h2 := sq_nonneg (A 2 0 * x.1 + A 2 1 * x.2 - b 2)
  have e0 : A 0 0 * x.1 + A 0 1 * x.2 - b 0 = 0 :=
    pow_eq_zero_iff two_ne_zero |>.1 (le_antisymm (by linarith) h0)
  have e1 : A 1 0 * x.1 + A 1 1 * x.2 - b 1 = 0 :=
    pow_eq_zero_iff two_ne_zero |>.1 (le_antisymm (by linarith) h1)
  have e2 : A 2 0 * x.1 + A 2 1 * x.2 - b 2 = 0 :=
    pow_eq_zero_iff two_ne_zero |>.1 (le_antisymm (by linarith) h2)
  intro i
  fin_cases i
  · exact e0
  · exact e1
  · exact e2

/-- The solution of a face whose one-form comes from a tangent vector: any least-squares
solver returns the coordinates of that vector. -/
theorem faceSolution_round_trip {R : Type} [LinearOrderedField R]
    (solve : (Fin 3 → Fin 2 → R) → (Fin 3 → R) → R × R) (hLS : IsLeastSquares solve)
    (oneForm : EdgePtr → R) (parent : Parent R) (f : FacePtr)
    (h3 : (parent.mesh.adjacentHalfedges f).length = 3) (a c : R)
    (hON : Orthonormal (parent.geometry.faceBases f).1 (parent.geometry.faceBases f).2)
    (hspan : ∀ he ∈ parent.mesh.adjacentHalfedges f,
      InSpan (parent.geometry.faceBases f).1 (parent.geometry.faceBases f).2
        (parent.geometry.halfedgeVectors he))
    (hnp : ¬ ∀ he ∈ parent.mesh.adjacentHalfedges f, ∀ he' ∈ parent.mesh.adjacentHalfedges f,
      Parallel (parent.geometry.halfedgeVectors he) (parent.geometry.halfedgeVectors he'))
    (hform : ∀ he ∈ parent.mesh.adjacentHalfedges f,
      oneForm (parent.mesh.edge he)
        = (if he = parent.mesh.halfedge (parent.mesh.edge he) then 1 else -1)
          * dot (parent.geometry.halfedgeVectors he)
              (((parent.geometry.faceBases f).1.mul a).add
                ((parent.geometry.faceBases f).2.mul c))) :
    faceSolution solve parent oneForm f = (a, c) := by
  -- the right-hand side of every row is the row applied to (a, c)
  have hrow : ∀ he ∈ parent.mesh.adjacentHalfedges f,
      oneForm (parent.mesh.edge he)
          * (if he = parent.mesh.halfedge (parent.mesh.edge he) then 1 else -1)
        = dot (parent.geometry.halfedgeVectors he) (parent.geometry.faceBases f).1 * a
          + dot (parent.geometry.halfedgeVectors he) (parent.geometry.faceBases f).2 * c := by
    intro he hhe
    rw [hform he hhe, dot_comm (parent.geometry.halfedgeVectors he), dot_span,
      dot_comm _ (parent.geometry.halfedgeVectors he),
      dot_comm _ (parent.geometry.halfedgeVectors he)]
    split <;> ring
  -- the half-edges of the face
  have hlen := h3
  obtain ⟨h0, h1', h2', hadj⟩ : ∃ h0 h1 h2, parent.mesh.adjacentHalfedges f = [h0, h1, h2] := by
    rcases hA : parent.mesh.adjacentHalfedges f with _ | ⟨h0, _ | ⟨h1, _ | ⟨h2, _ | ⟨h3, rest⟩⟩⟩⟩
    all_goals rw [hA] at hlen
    all_goals simp at hlen
    exact ⟨h0, h1, h2, rfl⟩
  -- the residual at (a, c) vanishes
  have hres : residual (specMatrix parent.geometry f (parent.mesh.adjacentHalfedges f))
      (specRhs parent.mesh (oneForm) (parent.mesh.adjacentHalfedges f))
      (a, c) = 0 := by
    have e0 := hrow h0 (by rw [hadj]; simp)
    have e1 := hrow h1' (by rw [hadj]; simp)
    have e2 := hrow h2' (by rw [hadj]; simp)
    simp only [residual, specMatrix, specRhs, hadj]
    simp only [Fin.val_zero, Fin.val_one, Fin.val_two, List.getD_cons_zero, List.getD_cons_succ,
      Fin.isValue, if_true, one_ne_zero, if_false, e0, e1, e2]
    ring
  have hzero := residual_zero_rows _ _ _
    (le_of_le_of_eq (hLS (specMatrix parent.geometry f (parent.mesh.adjacentHalfedges f))
      (specRhs parent.mesh (oneForm) (parent.mesh.adjacentHalfedges f))
      (a, c)) hres)
  have hzero' := residual_zero_rows _ _ (a, c) (le_of_eq hres)
  -- every half-edge of the face annihilates the difference
  have hdiff : ∀ he ∈ parent.mesh.adjacentHalfedges f,
      dot (parent.geometry.halfedgeVectors he) (parent.geometry.faceBases f).1
          * ((faceSolution solve parent (oneForm) f).1 - a)
        + dot (parent.geometry.halfedgeVectors he) (parent.geometry.faceBases f).2
          * ((faceSolution solve parent (oneForm) f).2 - c) = 0 := by
    intro he hhe
    rw [hadj] at hhe
    simp only [List.mem_cons, List.mem_singleton, List.not_mem_nil, or_false] at hhe
    rcases hhe with rfl | rfl | rfl
    · have z := hzero 0
      have z' := hzero' 0
      simp only [specMatrix, hadj, Fin.val_zero, List.getD_cons_zero, Fin.isValue, if_true,
        one_ne_zero, if_false] at z z'
      unfold faceSolution
      rw [hadj]
      linear_combination z - z'
    · have z := hzero 1
      have z' := hzero' 1
      simp only [specMatrix, hadj, Fin.val_one, List.getD_cons_zero, List.getD_cons_succ,
        Fin.isValue, if_true, one_ne_zero, if_false] at z z'
      unfold faceSolution
      rw [hadj]
      linear_combination z - z'
    · have z := hzero 2
      have z' := hzero' 2
      simp only [specMatrix, hadj, Fin.val_two, List.getD_cons_zero, List.getD_cons_succ,
        Fin.isValue, if_true, one_ne_zero, if_false] at z z'
      unfold faceSolution
      rw [hadj]
      linear_combination z - z'
  -- two half-edges that are not parallel
  have hsol : (faceSolution solve parent (oneForm) f).1 - a = 0
      ∧ (faceSolution solve parent (oneForm) f).2 - c = 0 := by
    by_contra hne
    apply hnp
    intro he hhe he' hhe'
    by_contra hpar
    apply hne
    have hm : dot (parent.geometry.halfedgeVectors he) (parent.geometry.faceBases f).1
          * dot (parent.geometry.halfedgeVectors he') (parent.geometry.faceBases f).2
        - dot (parent.geometry.halfedgeVectors he) (parent.geometry.faceBases f).2
          * dot (parent.geometry.halfedgeVectors he') (parent.geometry.faceBases f).1 ≠ 0 := by
      intro hm
      apply hpar
      unfold Parallel
      rw [span_coords _ _ _ hON (hspan he hhe), span_coords _ _ _ hON (hspan he' hhe'),
        cross_span, hm]
      simp [Vector3.mul]
    exact two_rows_unique _ _ _ _ _ _ hm (hdiff he hhe) (hdiff he' hhe')
  exact Prod.ext (sub_eq_zero.1 hsol.1) (sub_eq_zero.1 hsol.2)

/-- C4: the one-form round trip. Let the solver return least-squares solutions. For a face
`f` with three half-edges whose vectors lie in the span of the orthonormal face basis
`(b0, b1)` and are not all parallel, and for `w = a b0 + c b1`: if the one-form on the edge
of every half-edge `he` of `f` is `s(he) * dot(halfedgeVector[he], w)`, with `s = 1` for a
canonical half-edge and `-1` otherwise, then the loop body finishes on `f`, stores `a + i c`
in `mappedVectorField[f]` and pushes `w`; these are the entries of the finished quantity at
the position of `f`, and the constructor finishes when all faces have three half-edges. -/
theorem oneForm_round_trip {R : Type} [LinearOrderedField R]
    (solve : (Fin 3 → Fin 2 → R) → (Fin 3 → R) → R × R) (hLS : IsLeastSquares solve)
    (oneForm_ : EdgePtr → R) (parent : Parent R) (vt : VectorType) (f : FacePtr)
    (h3 : (parent.mesh.adjacentHalfedges f).length = 3) (a c : R)
    (hON : Orthonormal (parent.geometry.faceBases f).1 (parent.geometry.faceBases f).2)
    (hspan : ∀ he ∈ parent.mesh.adjacentHalfedges f,
      InSpan (parent.geometry.faceBases f).1 (parent.geometry.faceBases f).2
        (parent.geometry.halfedgeVectors he))
    (hnp : ¬ ∀ he ∈ parent.mesh.adjacentHalfedges f, ∀ he' ∈ parent.mesh.adjacentHalfedges f,
      Parallel (parent.geometry.halfedgeVectors he) (parent.geometry.halfedgeVectors he'))
    (hform : ∀ he ∈ parent.mesh.adjacentHalfedges f,
      parent.transfer.edge oneForm_ (parent.mesh.edge he)
        = (if he = parent.mesh.halfedge (parent.mesh.edge he) then 1 else -1)
          * dot (parent.geometry.halfedgeVectors he)
              (((parent.geometry.faceBases f).1.mul a).add
                ((parent.geometry.faceBases f).2.mul c))) :
    (∀ st : SurfaceVectorQuantity R × (FacePtr → Complex R),
        oneFormFace solve parent (parent.transfer.edge oneForm_) st f
          = Except.ok
              ((st.1.pushRoot (parent.geometry.barycenter f)).pushVector
                  (((parent.geometry.faceBases f).1.mul a).add
                    ((parent.geometry.faceBases f).2.mul c)),
                Function.update st.2 f ⟨a, c⟩))
      ∧ (∀ (q : SurfaceOneFormIntrinsicVectorQuantity R) (j : Nat),
          SurfaceOneFormIntrinsicVectorQuantity.new solve oneForm_ parent vt = Except.ok q →
          parent.mesh.faces[j]? = some f →
          q.mappedVectorField f = ⟨a, c⟩
            ∧ q.vectors[j]?
              = some (((parent.geometry.faceBases f).1.mul a).add
                  ((parent.geometry.faceBases f).2.mul c)))
      ∧ ((∀ g ∈ parent.mesh.faces, (parent.mesh.adjacentHalfedges g).length = 3) →
          ∃ q, SurfaceOneFormIntrinsicVectorQuantity.new solve oneForm_ parent vt
            = Except.ok q) := by
  have hsol := faceSolution_round_trip solve hLS (parent.transfer.edge oneForm_) parent f h3
    a c hON hspan hnp hform
  refine ⟨?_, ?_, oneForm_new_total solve oneForm_ parent vt⟩
  · intro st
    rw [oneFormFace_three solve parent _ st f h3]
    simp only [oneFormFaceResult, hsol]
    rfl
  · intro q j hq hf
    obtain ⟨h1, h2, _⟩ := oneForm_new_at solve oneForm_ parent vt q hq j f hf
    rw [h1, h2, hsol]
    exact ⟨rfl, rfl⟩

theorem triangle_orthonormal :
    Orthonormal ((triangleParent : Parent ℚ).geometry.faceBases 0).1
      ((triangleParent : Parent ℚ).geometry.faceBases 0).2 := by
  simp [Orthonormal, dot, triangleParent, triangleGeometry]

theorem triangle_inSpan :
    ∀ he ∈ (triangleParent : Parent ℚ).mesh.adjacentHalfedges 0,
      InSpan ((triangleParent : Parent ℚ).geometry.faceBases 0).1
        ((triangleParent : Parent ℚ).geometry.faceBases 0).2
        ((triangleParent : Parent ℚ).geometry.halfedgeVectors he) := by
  intro he hhe
  simp only [triangleParent, triangleMesh, List.mem_cons, List.mem_singleton,
    List.not_mem_nil, or_false] at hhe
  rcases hhe with rfl | rfl | rfl
  · exact ⟨1, 0, by simp [triangleParent, triangleGeometry, Vector3.add, Vector3.mul]⟩
  · exact ⟨-1, 1, by simp [triangleParent, triangleGeometry, Vector3.add, Vector3.mul]⟩
  · exact ⟨0, -1, by simp [triangleParent, triangleGeometry, Vector3.add, Vector3.mul]⟩

theorem triangle_not_all_parallel :
    ¬ ∀ he ∈ (triangleParent : Parent ℚ).mesh.adjacentHalfedges 0,
      ∀ he' ∈ (triangleParent : Parent ℚ).mesh.adjacentHalfedges 0,
        Parallel ((triangleParent : Parent ℚ).geometry.halfedgeVectors he)
          ((triangleParent : Parent ℚ).geometry.halfedgeVectors he') := by
  intro h
  have h01 := h 0 (by simp [triangleParent, triangleMesh]) 1 (by simp [triangleParent, triangleMesh])
  simp [Parallel, cross, triangleParent, triangleGeometry] at h01

theorem triangle_projections :
    ∀ he ∈ (triangleParent : Parent ℚ).mesh.adjacentHalfedges 0,
      (triangleParent : Parent ℚ).transfer.edge sampleOneForm
          ((triangleParent : Parent ℚ).mesh.edge he)
        = (if he = (triangleParent : Parent ℚ).mesh.halfedge
              ((triangleParent : Parent ℚ).mesh.edge he) then 1 else -1)
          * dot ((triangleParent : Parent ℚ).geometry.halfedgeVectors he)
              ((((triangleParent : Parent ℚ).geometry.faceBases 0).1.mul 1).add
                (((triangleParent : Parent ℚ).geometry.faceBases 0).2.mul 3)) := by
  intro he hhe
  simp only [triangleParent, triangleMesh, List.mem_cons, List.mem_singleton,
    List.not_mem_nil, or_false] at hhe
  rcases hhe with rfl | rfl | rfl
  · simp [triangleParent, triangleMesh, triangleGeometry, identityTransfer, sampleOneForm, dot,
      Vector3.add, Vector3.mul]
  · simp [triangleParent, triangleMesh, triangleGeometry, identityTransfer, sampleOneForm, dot,
      Vector3.add, Vector3.mul]
    norm_num
  · simp [triangleParent, triangleMesh, triangleGeometry, identityTransfer, sampleOneForm, dot,
      Vector3.add, Vector3.mul]

/-- C4, witness: the one-triangle mesh over the rationals and `w = b0 + 3 b1`; the
projections of `w` on the three edges are 1, 2 and 3 (half-edge 2 runs against its edge), and
the constructor with the modelled solve finishes and gives back `1 + 3 i` and `w`. -/
theorem oneForm_round_trip_witness :
    IsLeastSquares (colPivHouseholderQrSolve : (Fin 3 → Fin 2 → ℚ) → (Fin 3 → ℚ) → ℚ × ℚ)
      ∧ ((triangleParent : Parent ℚ).mesh.adjacentHalfedges 0).length = 3
      ∧ Orthonormal ((triangleParent : Parent ℚ).geometry.faceBases 0).1
          ((triangleParent : Parent ℚ).geometry.faceBases 0).2
      ∧ ∃ q, SurfaceOneFormIntrinsicVectorQuantity.new colPivHouseholderQrSolve sampleOneForm
            (triangleParent : Parent ℚ) VectorType.STANDARD = Except.ok q
          ∧ q.mappedVectorField 0 = ⟨1, 3⟩
          ∧ q.vectors[0]? = some (((Vector3.mk 1 0 0).mul 1).add ((Vector3.mk 0 1 0).mul 3)) := by
  have h := oneForm_round_trip colPivHouseholderQrSolve colPivHouseholderQrSolve_isLeastSquares
    sampleOneForm (triangleParent : Parent ℚ) VectorType.STANDARD 0 rfl 1 3
    triangle_orthonormal triangle_inSpan triangle_not_all_parallel triangle_projections
  obtain ⟨q, hq⟩ := h.2.2 (fun _ _ => rfl)
  exact ⟨colPivHouseholderQrSolve_isLeastSquares, rfl, triangle_orthonormal, q, hq,
    h.2.1 q 0 hq rfl⟩

/-! ## Intrinsic face vectors in exact arithmetic -/

theorem toMathlib_mul (a b : Complex ℝ) :
    (a.mul b).toMathlib = a.toMathlib * b.toMathlib := by
  apply Complex.ext <;> simp [Complex.toMathlib, Complex.mul]

theorem toMathlib_inj (a b : Complex ℝ) (h : a.toMathlib = b.toMathlib) : a = b := by
  cases a
  cases b
  simp only [Complex.toMathlib, Complex.mk.injEq] at h
  have h1 := congrArg Complex.re h
  have h2 := congrArg Complex.im h
  simp only at h1 h2
  rw [h1, h2]

/-- The factor `rot` of an exact library is the rotation by `2 pi / n`. -/
theorem exact_rot (S : StdLib ℝ) (hS : S.Exact) (n : Nat) :
    (S.exp (S.IM_I.mulReal (2 * S.PI / (((n : Int) : ℝ))))).toMathlib
      = Complex.exp (Complex.I * ((2 * Real.pi / (n : ℝ) : ℝ) : ℂ)) := by
  obtain ⟨hpi, hI, hexp, _⟩ := hS
  rw [hexp, hpi, hI]
  congr 1
  apply Complex.ext <;> simp [Complex.toMathlib, Complex.mulReal]

theorem specAngle_toMathlib (rot z : Complex ℝ) (k : Nat) :
    (specAngle rot z k).toMathlib = z.toMathlib * rot.toMathlib ^ k := by
  induction k with
  | zero => simp [specAngle]
  | succ k ih => rw [specAngle, toMathlib_mul, ih, pow_succ, mul_assoc]

/-- The principal `n`-th root of `z`, rotated `k` times by `2 pi / n`. -/
theorem rotated_root (z : ℂ) (n : Nat) (hn : 1 ≤ n) (k : Nat) :
    z ^ (((1 / (n : ℝ) : ℝ)) : ℂ) * Complex.exp (Complex.I * ((2 * Real.pi / (n : ℝ) : ℝ) : ℂ)) ^ k
        = ((Complex.abs z ^ (1 / (n : ℝ)) : ℝ) : ℂ)
          * Complex.exp (((Complex.arg z / n + 2 * Real.pi * k / n : ℝ) : ℂ) * Complex.I)
      ∧ Complex.abs (z ^ (((1 / (n : ℝ) : ℝ)) : ℂ)
          * Complex.exp (Complex.I * ((2 * Real.pi / (n : ℝ) : ℝ) : ℂ)) ^ k)
        = Complex.abs z ^ (1 / (n : ℝ))
      ∧ (z ^ (((1 / (n : ℝ) : ℝ)) : ℂ)
          * Complex.exp (Complex.I * ((2 * Real.pi / (n : ℝ) : ℝ) : ℂ)) ^ k) ^ n = z := by
  have hn0 : (n : ℝ) ≠ 0 := by
    have : (0 : ℝ) < n := by exact_mod_cast hn
    exact ne_of_gt this
  have hnC : (n : ℂ) ≠ 0 := by exact_mod_cast hn0
  have hfirst : z ^ (((1 / (n : ℝ) : ℝ)) : ℂ)
        * Complex.exp (Complex.I * ((2 * Real.pi / (n : ℝ) : ℝ) : ℂ)) ^ k
      = ((Complex.abs z ^ (1 / (n : ℝ)) : ℝ) : ℂ)
        * Complex.exp (((Complex.arg z / n + 2 * Real.pi * k / n : ℝ) : ℂ) * Complex.I) := by
    rw [Complex.cpow_ofReal, Complex.ofReal_cos, Complex.ofReal_sin, ← Complex.exp_mul_I,
      ← Complex.exp_nat_mul, mul_assoc, ← Complex.exp_add]
    congr 2
    push_cast
    field_simp
    ring
  refine ⟨hfirst, ?_, ?_⟩
  · rw [hfirst, map_mul, Complex.abs_exp_ofReal_mul_I, mul_one, Complex.abs_ofReal,
      abs_of_nonneg (Real.rpow_nonneg (Complex.abs.nonneg z) _)]
  · rw [mul_pow, ← pow_mul, mul_comm k n, pow_mul, ← Complex.exp_nat_mul]
    have h1 : (n : ℂ) * (Complex.I * ((2 * Real.pi / (n : ℝ) : ℝ) : ℂ))
        = 2 * Real.pi * Complex.I := by
      push_cast
      field_simp
      ring
    rw [h1, Complex.exp_two_pi_mul_I, one_pow, mul_one]
    have h2 : (((1 / (n : ℝ) : ℝ)) : ℂ) = ((n : ℂ))⁻¹ := by
      push_cast
      simp
    rw [h2]
    exact Complex.cpow_nat_inv_pow z (by omega)

/-- In a concatenation of blocks of length `n`, entry `j * n + k` is entry `k` of block
`j`. -/
theorem flatMap_block {α β : Type} (g : α → List β) (n : Nat)
    (hlen : ∀ a, (g a).length = n) (k : Nat) (hk : k < n) (l : List α) :
    ∀ (j : Nat) (a : α), l[j]? = some a → (l.flatMap g)[j * n + k]? = (g a)[k]? := by
  induction l with
  | nil => intro j a ha; simp at ha
  | cons b rest ih =>
    intro j a ha
    rw [List.flatMap_cons]
    cases j with
    | zero =>
      simp only [List.getElem?_cons_zero, Option.some.injEq] at ha
      subst ha
      rw [Nat.zero_mul, Nat.zero_add, List.getElem?_append_left (by rw [hlen]; exact hk)]
    | succ j =>
      simp only [List.getElem?_cons_succ] at ha
      have hle : (g b).length ≤ (j + 1) * n + k := by
        rw [hlen, Nat.add_mul]
        omega
      rw [List.getElem?_append_right hle, hlen]
      have : (j + 1) * n + k - n = j * n + k := by
        rw [Nat.add_mul]
        omega
      rw [this]
      exact ih j a ha

/-- The samples of the intrinsic face constructor by position: sample `j * n + k` belongs to
the `j`-th face and to iteration `k` of the rotation loop. -/
theorem faceIntrinsic_new_at {R : Type} [Field R] (S : StdLib R)
    (vectors_ : FacePtr → Complex R) (parent : Parent R) (n : Nat) (vt : VectorType)
    (j : Nat) (f : FacePtr) (hf : parent.mesh.faces[j]? = some f) (k : Nat) (hk : k < n) :
    (SurfaceFaceIntrinsicVectorQuantity.new S vectors_ parent (n : Int) vt).vectorRoots[j * n + k]?
        = some (parent.geometry.barycenter f)
      ∧ (SurfaceFaceIntrinsicVectorQuantity.new S vectors_ parent (n : Int) vt).vectors[j * n + k]?
        = some (tangentVector parent.geometry f
            (specAngle (S.exp (S.IM_I.mulReal (2 * S.PI / (((n : Int) : R)))))
              (S.pow (parent.transfer.face vectors_ f) (1 / (((n : Int) : R)))) k)) := by
  obtain ⟨h1, h2⟩ := faceIntrinsic_new_samples S vectors_ parent (n : Int) vt
  rw [h1, h2, Int.toNat_ofNat]
  constructor
  · rw [flatMap_block _ n (fun a => by simp) k hk _ j f hf]
    simp [hk]
  · rw [flatMap_block _ n (fun a => by simp) k hk _ j f hf]
    simp [List.getElem?_range hk]

/-! ## C2 -/

/-- C2: with the standard library in exact arithmetic and `nSym = n >= 1`, the intrinsic face
constructor emits for each face, in the order of the faces, `n` consecutive samples; all `n`
roots are the barycenter of the face; the vector of sample `k` is the tangent vector of the
complex angle `angle k`, and `angle (k + 1)` is `angle k` times `exp(i 2 pi / n)`. -/
theorem faceIntrinsic_equally_spaced (S : StdLib ℝ) (hS : S.Exact)
    (vectors_ : FacePtr → Complex ℝ) (parent : Parent ℝ) (n : Nat) (_hn : 1 ≤ n)
    (vt : VectorType) :
    (SurfaceFaceIntrinsicVectorQuantity.new S vectors_ parent (n : Int) vt).vectorRoots
        = parent.mesh.faces.flatMap
            (fun f => List.replicate n (parent.geometry.barycenter f))
      ∧ (SurfaceFaceIntrinsicVectorQuantity.new S vectors_ parent (n : Int) vt).vectors
        = parent.mesh.faces.flatMap (fun f =>
            (List.range n).map (fun k => tangentVector parent.geometry f
              (specAngle (S.exp (S.IM_I.mulReal (2 * S.PI / (((n : Int) : ℝ)))))
                (S.pow (parent.transfer.face vectors_ f) (1 / (((n : Int) : ℝ)))) k)))
      ∧ ∀ (f : FacePtr) (k : Nat),
          (specAngle (S.exp (S.IM_I.mulReal (2 * S.PI / (((n : Int) : ℝ)))))
              (S.pow (parent.transfer.face vectors_ f) (1 / (((n : Int) : ℝ)))) (k + 1)).toMathlib
            = (specAngle (S.exp (S.IM_I.mulReal (2 * S.PI / (((n : Int) : ℝ)))))
                (S.pow (parent.transfer.face vectors_ f) (1 / (((n : Int) : ℝ)))) k).toMathlib
              * Complex.exp (Complex.I * ((2 * Real.pi / (n : ℝ) : ℝ) : ℂ)) := by
  obtain ⟨h1, h2⟩ := faceIntrinsic_new_samples S vectors_ parent (n : Int) vt
  rw [Int.toNat_ofNat] at h1 h2
  refine ⟨h1, h2, ?_⟩
  intro f k
  rw [specAngle, toMathlib_mul, exact_rot S hS n]

/-! ## The rotated roots in exact arithmetic -/

/-- In exact arithmetic only: with an exact standard library and `nSym = n >= 1`, for the
`j`-th face `f` with non-zero value `z` and for `k < n`, the vector of sample `j * n + k` is
the tangent vector of the value the variable `angle` has in iteration `k`; that value equals
`|z|^(1/n) exp(i (arg z / n + 2 pi k / n))`, has magnitude `|z|^(1/n)`, and its `n`-th
power is `z`. Rounding, signed zeros, infinities and NaN of `double` are outside this
statement. -/
theorem exact_rotated_roots (S : StdLib ℝ) (hS : S.Exact)
    (vectors_ : FacePtr → Complex ℝ) (parent : Parent ℝ) (n : Nat) (hn : 1 ≤ n)
    (vt : VectorType) (j : Nat) (f : FacePtr) (hf : parent.mesh.faces[j]? = some f)
    (_hz : (parent.transfer.face vectors_ f).toMathlib ≠ 0) (k : Nat) (hk : k < n) :
    (SurfaceFaceIntrinsicVectorQuantity.new S vectors_ parent (n : Int) vt).vectors[j * n + k]?
        = some (tangentVector parent.geometry f
            (specAngle (S.exp (S.IM_I.mulReal (2 * S.PI / (((n : Int) : ℝ)))))
              (S.pow (parent.transfer.face vectors_ f) (1 / (((n : Int) : ℝ)))) k))
      ∧ (specAngle (S.exp (S.IM_I.mulReal (2 * S.PI / (((n : Int) : ℝ)))))
            (S.pow (parent.transfer.face vectors_ f) (1 / (((n : Int) : ℝ)))) k).toMathlib
        = ((Complex.abs (parent.transfer.face vectors_ f).toMathlib ^ (1 / (n : ℝ)) : ℝ) : ℂ)
          * Complex.exp
              (((Complex.arg (parent.transfer.face vectors_ f).toMathlib / n
                  + 2 * Real.pi * k / n : ℝ) : ℂ) * Complex.I)
      ∧ Complex.abs
          (specAngle (S.exp (S.IM_I.mulReal (2 * S.PI / (((n : Int) : ℝ)))))
            (S.pow (parent.transfer.face vectors_ f) (1 / (((n : Int) : ℝ)))) k).toMathlib
        = Complex.abs (parent.transfer.face vectors_ f).toMathlib ^ (1 / (n : ℝ))
      ∧ (specAngle (S.exp (S.IM_I.mulReal (2 * S.PI / (((n : Int) : ℝ)))))
            (S.pow (parent.transfer.face vectors_ f) (1 / (((n : Int) : ℝ)))) k).toMathlib ^ n
        = (parent.transfer.face vectors_ f).toMathlib := by
  refine ⟨(faceIntrinsic_new_at S vectors_ parent n vt j f hf k hk).2, ?_⟩
  have hpow : (S.pow (parent.transfer.face vectors_ f) (1 / (((n : Int) : ℝ)))).toMathlib
      = (parent.transfer.face vectors_ f).toMathlib ^ (((1 / (n : ℝ) : ℝ)) : ℂ) := by
    rw [hS.2.2.2]
    simp
  rw [specAngle_toMathlib, exact_rot S hS n, hpow]
  exact rotated_root _ n hn k

/-! ## C8 -/

theorem specAngle_zero {R : Type} [Field R] (rot : Complex R) (k : Nat) :
    specAngle rot ⟨0, 0⟩ k = ⟨0, 0⟩ := by
  induction k with
  | zero => rfl
  | succ k ih => rw [specAngle, ih]; simp [Complex.mul]

/-- C8: with the standard library in exact arithmetic and `nSym = n >= 1`, the constructor
is a total function, so it finishes on a face value 0 as on any other; all `n` samples of
a face whose value is 0 are the zero vector; and the samples of every other face depend
only on the value of that face, so they are the same for any other value on the first
face. -/
theorem faceIntrinsic_zero_value (S : StdLib ℝ) (hS : S.Exact)
    (vectors_ : FacePtr → Complex ℝ) (parent : Parent ℝ) (n : Nat) (hn : 1 ≤ n)
    (vt : VectorType) (j : Nat) (f : FacePtr) (hf : parent.mesh.faces[j]? = some f)
    (hz : parent.transfer.face vectors_ f = ⟨0, 0⟩) :
    (∀ k, k < n →
        (SurfaceFaceIntrinsicVectorQuantity.new S vectors_ parent (n : Int) vt).vectors[j * n + k]?
          = some ⟨0, 0, 0⟩)
      ∧ ∀ other : FacePtr → Complex ℝ,
          (∀ g, g ≠ f → parent.transfer.face other g = parent.transfer.face vectors_ g) →
          ∀ (i : Nat) (g : FacePtr), parent.mesh.faces[i]? = some g → g ≠ f →
            ∀ k, k < n →
              (SurfaceFaceIntrinsicVectorQuantity.new S other parent (n : Int) vt).vectors[i * n + k]?
                = (SurfaceFaceIntrinsicVectorQuantity.new S vectors_ parent (n : Int) vt).vectors[
                    i * n + k]? := by
  constructor
  · intro k hk
    rw [(faceIntrinsic_new_at S vectors_ parent n vt j f hf k hk).2, hz]
    have hpow : S.pow ⟨0, 0⟩ (1 / (((n : Int) : ℝ))) = ⟨0, 0⟩ := by
      apply toMathlib_inj
      rw [hS.2.2.2]
      have hne : (((1 / (((n : Int) : ℝ)) : ℝ)) : ℂ) ≠ 0 := by
        have : (0 : ℝ) < n := by exact_mod_cast hn
        have h1 : (1 / (((n : Int) : ℝ)) : ℝ) ≠ 0 := by
          simp only [Int.cast_natCast]
          positivity
        exact_mod_cast h1
      have h0 : (Complex.mk 0 0 : Complex ℝ).toMathlib = 0 := by
        apply Complex.ext <;> simp [Complex.toMathlib]
      rw [h0, Complex.zero_cpow hne]
    rw [hpow, specAngle_zero]
    simp [tangentVector, Vector3.add, Vector3.mul]
  · intro other hother i g hg hgf k hk
    rw [(faceIntrinsic_new_at S vectors_ parent n vt i g hg k hk).2,
      (faceIntrinsic_new_at S other parent n vt i g hg k hk).2, hother g hgf]

/-! ## Witnesses in exact arithmetic -/

/-- The library built from Mathlib's pi, exponential and power is exact. -/
theorem lift_exact : (StdLib.lift Real.pi Complex.exp (fun z w => z ^ w)).Exact :=
  ⟨rfl, rfl, fun _ => rfl, fun _ _ => rfl⟩

/-- The complex number 2 at 40 degrees has modulus 2 and argument `2 pi / 9`. -/
theorem two_at_forty :
    (Complex.mk (2 * Real.cos (2 * Real.pi / 9)) (2 * Real.sin (2 * Real.pi / 9))
        : Complex ℝ).toMathlib ≠ 0
      ∧ Complex.abs (Complex.mk (2 * Real.cos (2 * Real.pi / 9))
          (2 * Real.sin (2 * Real.pi / 9)) : Complex ℝ).toMathlib = 2
      ∧ Complex.arg (Complex.mk (2 * Real.cos (2 * Real.pi / 9))
          (2 * Real.sin (2 * Real.pi / 9)) : Complex ℝ).toMathlib = 2 * Real.pi / 9 := by
  have hz : (Complex.mk (2 * Real.cos (2 * Real.pi / 9)) (2 * Real.sin (2 * Real.pi / 9))
        : Complex ℝ).toMathlib
      = ((2 : ℝ) : ℂ) * (Complex.cos ((2 * Real.pi / 9 : ℝ) : ℂ)
          + Complex.sin ((2 * Real.pi / 9 : ℝ) : ℂ) * Complex.I) := by
    rw [← Complex.ofReal_cos, ← Complex.ofReal_sin]
    apply Complex.ext
    · simp only [Complex.toMathlib, Complex.mul_re, Complex.add_re, Complex.ofReal_re,
        Complex.ofReal_im, Complex.mul_im, Complex.add_im, Complex.I_re, Complex.I_im]
      ring
    · simp only [Complex.toMathlib, Complex.mul_re, Complex.add_re, Complex.ofReal_re,
        Complex.ofReal_im, Complex.mul_im, Complex.add_im, Complex.I_re, Complex.I_im]
      ring
  have hpi := Real.pi_pos
  have hmem : (2 * Real.pi / 9 : ℝ) ∈ Set.Ioc (-Real.pi) Real.pi := by
    constructor <;> linarith
  have h2pos : (0 : ℝ) < 2 := by norm_num
  have harg := Complex.arg_mul_cos_add_sin_mul_I h2pos hmem
  have habs : Complex.abs (((2 : ℝ) : ℂ) * (Complex.cos ((2 * Real.pi / 9 : ℝ) : ℂ)
          + Complex.sin ((2 * Real.pi / 9 : ℝ) : ℂ) * Complex.I)) = 2 := by
    rw [← Complex.exp_mul_I, map_mul, Complex.abs_exp_ofReal_mul_I, mul_one,
      Complex.abs_ofReal]
    norm_num
  rw [hz]
  refine ⟨?_, habs, harg⟩
  intro h0
  rw [h0] at habs
  simp at habs

/-- C2, witness: symmetry order 4 on the one-triangle mesh with the exact library; four
samples at the barycenter, and each angle is the one before times `exp(i 2 pi / 4)`. -/
theorem faceIntrinsic_equally_spaced_witness :
    (StdLib.lift Real.pi Complex.exp (fun z w => z ^ w)).Exact ∧ 1 ≤ 4
      ∧ (SurfaceFaceIntrinsicVectorQuantity.new
            (StdLib.lift Real.pi Complex.exp (fun z w => z ^ w)) (fun _ => ⟨1, 0⟩)
            (triangleParent : Parent ℝ) ((4 : Nat) : Int) VectorType.STANDARD).vectorRoots
          = (triangleParent : Parent ℝ).mesh.faces.flatMap
              (fun f => List.replicate 4 ((triangleParent : Parent ℝ).geometry.barycenter f))
      ∧ ∀ (f : FacePtr) (k : Nat),
          (specAngle
              ((StdLib.lift Real.pi Complex.exp (fun z w => z ^ w)).exp
                ((StdLib.lift Real.pi Complex.exp (fun z w => z ^ w)).IM_I.mulReal
                  (2 * (StdLib.lift Real.pi Complex.exp (fun z w => z ^ w)).PI
                    / ((((4 : Nat) : Int) : ℝ)))))
              ((StdLib.lift Real.pi Complex.exp (fun z w => z ^ w)).pow
                ((triangleParent : Parent ℝ).transfer.face (fun _ => ⟨1, 0⟩) f)
                (1 / ((((4 : Nat) : Int) : ℝ)))) (k + 1)).toMathlib
            = (specAngle
                ((StdLib.lift Real.pi Complex.exp (fun z w => z ^ w)).exp
                  ((StdLib.lift Real.pi Complex.exp (fun z w => z ^ w)).IM_I.mulReal
                    (2 * (StdLib.lift Real.pi Complex.exp (fun z w => z ^ w)).PI
                      / ((((4 : Nat) : Int) : ℝ)))))
                ((StdLib.lift Real.pi Complex.exp (fun z w => z ^ w)).pow
                  ((triangleParent : Parent ℝ).transfer.face (fun _ => ⟨1, 0⟩) f)
                  (1 / ((((4 : Nat) : Int) : ℝ)))) k).toMathlib
              * Complex.exp (Complex.I * ((2 * Real.pi / ((4 : Nat) : ℝ) : ℝ) : ℂ)) :=
  ⟨lift_exact, by decide,
    (faceIntrinsic_equally_spaced (StdLib.lift Real.pi Complex.exp (fun z w => z ^ w))
      lift_exact (fun _ => ⟨1, 0⟩) (triangleParent : Parent ℝ) 4 (by decide)
      VectorType.STANDARD).1,
    (faceIntrinsic_equally_spaced (StdLib.lift Real.pi Complex.exp (fun z w => z ^ w))
      lift_exact (fun _ => ⟨1, 0⟩) (triangleParent : Parent ℝ) 4 (by decide)
      VectorType.STANDARD).2.2⟩

/-- In exact arithmetic only: symmetry order 4 and the value 2 at 40 degrees; the four
angles have magnitude `2^(1/4)` and stand at 10, 100, 190 and 280 degrees, and their fourth
power is the value. -/
theorem exact_roots_of_two_at_forty :
    (StdLib.lift Real.pi Complex.exp (fun z w => z ^ w)).Exact ∧ 1 ≤ 4
      ∧ (Complex.mk (2 * Real.cos (2 * Real.pi / 9)) (2 * Real.sin (2 * Real.pi / 9))
          : Complex ℝ).toMathlib ≠ 0
      ∧ ∀ k : Nat, k < 4 →
          ∃ angle : Complex ℝ,
            (SurfaceFaceIntrinsicVectorQuantity.new
                (StdLib.lift Real.pi Complex.exp (fun z w => z ^ w))
                (fun _ => ⟨2 * Real.cos (2 * Real.pi / 9), 2 * Real.sin (2 * Real.pi / 9)⟩)
                (triangleParent : Parent ℝ) ((4 : Nat) : Int) VectorType.STANDARD).vectors[
                  0 * 4 + k]?
              = some (tangentVector (triangleParent : Parent ℝ).geometry 0 angle)
            ∧ angle
              = specAngle
                  ((StdLib.lift Real.pi Complex.exp (fun z w => z ^ w)).exp
                    ((StdLib.lift Real.pi Complex.exp (fun z w => z ^ w)).IM_I.mulReal
                      (2 * (StdLib.lift Real.pi Complex.exp (fun z w => z ^ w)).PI
                        / ((((4 : Nat) : Int) : ℝ)))))
                  ((StdLib.lift Real.pi Complex.exp (fun z w => z ^ w)).pow
                    ⟨2 * Real.cos (2 * Real.pi / 9), 2 * Real.sin (2 * Real.pi / 9)⟩
                    (1 / ((((4 : Nat) : Int) : ℝ)))) k
            ∧ angle.toMathlib
              = (((2 : ℝ) ^ (1 / 4 : ℝ) : ℝ) : ℂ)
                * Complex.exp ((((10 + 90 * (k : ℝ)) * Real.pi / 180 : ℝ) : ℂ) * Complex.I)
            ∧ Complex.abs angle.toMathlib = (2 : ℝ) ^ (1 / 4 : ℝ)
            ∧ angle.toMathlib ^ 4
              = (Complex.mk (2 * Real.cos (2 * Real.pi / 9)) (2 * Real.sin (2 * Real.pi / 9))
                  : Complex ℝ).toMathlib := by
  refine ⟨lift_exact, by decide, two_at_forty.1, ?_⟩
  intro k hk
  obtain ⟨h1, h2, h3, h4⟩ :=
    exact_rotated_roots (StdLib.lift Real.pi Complex.exp (fun z w => z ^ w))
      lift_exact
      (fun _ => ⟨2 * Real.cos (2 * Real.pi / 9), 2 * Real.sin (2 * Real.pi / 9)⟩)
      (triangleParent : Parent ℝ) 4 (by decide) VectorType.STANDARD 0 0 rfl
      two_at_forty.1 k hk
  have habs : Complex.abs ((triangleParent : Parent ℝ).transfer.face
      (fun _ => (⟨2 * Real.cos (2 * Real.pi / 9), 2 * Real.sin (2 * Real.pi / 9)⟩ : Complex ℝ))
      0).toMathlib = 2 := two_at_forty.2.1
  have harg : Complex.arg ((triangleParent : Parent ℝ).transfer.face
      (fun _ => (⟨2 * Real.cos (2 * Real.pi / 9), 2 * Real.sin (2 * Real.pi / 9)⟩ : Complex ℝ))
      0).toMathlib = 2 * Real.pi / 9 := two_at_forty.2.2
  rw [habs, harg] at h2
  rw [habs] at h3
  refine ⟨_, h1, rfl, ?_, ?_, h4⟩
  · rw [h2]
    norm_num
    congr 2
    ring
  · rw [h3]
    norm_num

/-- C8, witness: symmetry order 4 and the value 0 on the face of the one-triangle mesh; the
four samples are zero vectors. -/
theorem faceIntrinsic_zero_value_witness :
    (StdLib.lift Real.pi Complex.exp (fun z w => z ^ w)).Exact ∧ 1 ≤ 4
      ∧ ∀ k, k < 4 →
          (SurfaceFaceIntrinsicVectorQuantity.new
              (StdLib.lift Real.pi Complex.exp (fun z w => z ^ w)) (fun _ => ⟨0, 0⟩)
              (triangleParent : Parent ℝ) ((4 : Nat) : Int) VectorType.STANDARD).vectors[
                0 * 4 + k]?
            = some ⟨0, 0, 0⟩ :=
  ⟨lift_exact, by decide,
    (faceIntrinsic_zero_value (StdLib.lift Real.pi Complex.exp (fun z w => z ^ w))
      lift_exact (fun _ => ⟨0, 0⟩) (triangleParent : Parent ℝ) 4 (by decide)
      VectorType.STANDARD 0 0 rfl rfl).1⟩

end polyscope
